import Mathlib

set_option maxHeartbeats 1000000

/- Shallow embedding of the SimpleFS file system
   (src/simple-file-system/src/fs.c together with the disk contract of
   src/simple-file-system/src/disk.c).

   Blocks are byte arrays modelled as total functions `Nat → Nat` (byte index
   to byte value).  The C `union Block` views (superblock, inode table,
   pointer array, raw data) are explicit little-endian 32-bit codecs over the
   bytes, matching the x86 struct layout the C code relies on.  Machine
   arithmetic on the 32-bit superblock/inode fields is `% 2^32`; `size_t`
   wrap-around in `fs_read` is `% 2^64`.

   The C functions mutate `FileSystem *fs` and the disk behind `fs->disk`;
   here every operation takes the file system record and the disk explicitly
   and returns the updated copies.  Underlying device I/O can fail in C (short
   read/write); this environment nondeterminism is modelled by per-block
   failure flags `failR`/`failW` on the disk.  All theorems about failure-free
   runs set both flags to `false` everywhere. -/

namespace SimpleFS

/-- Modelled from the spec: the header sfs/fs.h is not under src/.  Block size
of the device, the conventional SimpleFS value (fixed-size blocks, §6). -/
def BLOCK_SIZE : Nat := 4096

/-- Modelled from the spec: the header sfs/fs.h is not under src/.  Inodes are
32-byte records packed back-to-back, so a block holds 4096/32 = 128 of them. -/
def INODES_PER_BLOCK : Nat := 128

/-- Modelled from the spec: the header sfs/fs.h is not under src/.  Number of
direct pointers held inside one inode. -/
def POINTERS_PER_INODE : Nat := 5

/-- Modelled from the spec: the header sfs/fs.h is not under src/.  Pointers
are 4-byte unsigned integers, so an indirect block holds 4096/4 = 1024 (§6:
count = block size ÷ pointer size). -/
def POINTERS_PER_BLOCK : Nat := 1024

/-- Modelled from the spec: the header sfs/fs.h is not under src/.  The fixed
magic constant of the superblock; the conventional SimpleFS value.  The
theorems below depend only on it being nonzero. -/
def MAGIC_NUMBER : Nat := 0xf0f03410

/-- Modulus of 32-bit unsigned arithmetic. -/
def U32MOD : Nat := 4294967296

/-- Modulus of 64-bit `size_t` arithmetic. -/
def SIZE_T_MOD : Nat := 18446744073709551616

/-- Little-endian unsigned 32-bit value stored at byte offset `o` of a block. -/
def u32At (blk : Nat → Nat) (o : Nat) : Nat :=
  blk o % 256 + 256 * (blk (o + 1) % 256) + 65536 * (blk (o + 2) % 256) +
    16777216 * (blk (o + 3) % 256)

/-- Store the little-endian unsigned 32-bit value `v` at byte offset `o`. -/
def setU32 (blk : Nat → Nat) (o v : Nat) : Nat → Nat :=
  fun i => if o ≤ i ∧ i < o + 4 then v / 256 ^ (i - o) % 256 else blk i

/-- The `SuperBlock` struct: four consecutive uint32_t fields. -/
structure SuperBlock where
  magic_number : Nat
  blocks : Nat
  inode_blocks : Nat
  inodes : Nat
deriving DecidableEq, Repr

/-- View of block bytes as the `SuperBlock` member of `union Block`. -/
def decodeSuper (blk : Nat → Nat) : SuperBlock :=
  { magic_number := u32At blk 0
    blocks := u32At blk 4
    inode_blocks := u32At blk 8
    inodes := u32At blk 12 }

/-- The `Inode` struct: uint32 valid, uint32 size, uint32 direct[5],
uint32 indirect — 32 bytes. -/
structure Inode where
  valid : Nat
  size : Nat
  direct : Nat → Nat
  indirect : Nat

/-- View of slot `j` of an inode-table block (`block.inodes[j]`). -/
def decodeInode (blk : Nat → Nat) (j : Nat) : Inode :=
  { valid := u32At blk (32 * j)
    size := u32At blk (32 * j + 4)
    direct := fun k => u32At blk (32 * j + 8 + 4 * k)
    indirect := u32At blk (32 * j + 28) }

/-- Overwrite slot `j` of an inode-table block with the record `nd`
(`ib.inodes[block_index] = *node`). -/
def encodeInode (blk : Nat → Nat) (j : Nat) (nd : Inode) : Nat → Nat :=
  setU32 (setU32 (setU32 (setU32 (setU32 (setU32 (setU32 (setU32 blk
    (32 * j) nd.valid) (32 * j + 4) nd.size) (32 * j + 8) (nd.direct 0))
    (32 * j + 12) (nd.direct 1)) (32 * j + 16) (nd.direct 2))
    (32 * j + 20) (nd.direct 3)) (32 * j + 24) (nd.direct 4))
    (32 * j + 28) nd.indirect

/-- View of entry `l` of an indirect block (`block.pointers[l]`). -/
def pointerAt (blk : Nat → Nat) (l : Nat) : Nat := u32At blk (4 * l)

/-- The disk (disk.c): `nblocks` blocks of bytes; `failR`/`failW` say whether
the underlying POSIX read/write of a given block fails. -/
structure Disk where
  nblocks : Nat
  data : Nat → Nat → Nat
  failR : Nat → Bool
  failW : Nat → Bool

/-- An all-zero block (`Block empty_block = {{0}}`). -/
def zeroBlock : Nat → Nat := fun _ => 0

/-- disk_read: sanity check `block < disk->blocks`, then the underlying read;
`none` is DISK_FAILURE. -/
def disk_read (d : Disk) (b : Nat) : Option (Nat → Nat) :=
  if b < d.nblocks then
    if d.failR b then none else some (d.data b)
  else none

/-- disk_write: sanity check then the underlying write; `none` is
DISK_FAILURE, `some` returns the updated disk. -/
def disk_write (d : Disk) (b : Nat) (blk : Nat → Nat) : Option Disk :=
  if b < d.nblocks then
    if d.failW b then none
    else some { d with data := fun b2 => if b2 = b then blk else d.data b2 }
  else none

/-- The `FileSystem` struct: the cached superblock and the free-block bitmap;
`free_blocks = none` models the NULL pointer of an unmounted file system.
The `disk` member is passed explicitly to each operation instead. -/
structure FileSystem where
  meta_data : SuperBlock
  free_blocks : Option (Nat → Bool)

/-- Pointwise bitmap update (`fs->free_blocks[i] = v`). -/
def bmset (fb : Nat → Bool) (i : Nat) (v : Bool) : Nat → Bool :=
  fun k => if k = i then v else fb k

/-- The loop of fs_format: `for(i = 1; i < blocks; i++) disk_write(disk, i,
empty_block.data)`, aborting with `false` on a failed write.  The last
argument counts the remaining iterations (`blocks - i`). -/
def format_loop : Disk → Nat → Nat → Bool × Disk
  | disk, _, 0 => (true, disk)
  | disk, i, c + 1 =>
    match disk_write disk i zeroBlock with
    | some d2 => format_loop d2 (i + 1) c
    | none => (false, disk)

/-- fs_format (fs.c:99-121): refuses a mounted fs, fills in `meta_data`
(blocks, inode_blocks = ceil(blocks/10), inodes), then zeroes blocks
1..blocks-1.  Note the C code never issues a `disk_write` for block 0. -/
def fs_format (fs : FileSystem) (disk : Disk) : Bool × FileSystem × Disk :=
  if fs.free_blocks.isSome then (false, fs, disk)
  else
    let blocks := disk.nblocks % U32MOD
    let ib := if blocks % 10 = 0 then blocks / 10 else blocks / 10 + 1
    let meta : SuperBlock :=
      { magic_number := MAGIC_NUMBER
        blocks := blocks
        inode_blocks := ib
        inodes := ib * INODES_PER_BLOCK % U32MOD }
    let r := format_loop disk 1 (blocks - 1)
    (r.1, { fs with meta_data := meta }, r.2)

/-- Inner loop of the mount bitmap rebuild: clear the bitmap at every nonzero
direct pointer of a valid inode (fs.c:169-173). -/
def clear_direct : (Nat → Bool) → Inode → Nat → Nat → Nat → Bool
  | fb, _, _, 0 => fb
  | fb, nd, k, c + 1 =>
    clear_direct
      (if nd.direct k ≠ 0 then bmset fb (nd.direct k) false else fb) nd (k + 1) c

/-- Inner loop of the mount bitmap rebuild: clear the bitmap at every nonzero
entry of an indirect block (fs.c:178-182). -/
def clear_pointers : (Nat → Bool) → (Nat → Nat) → Nat → Nat → Nat → Bool
  | fb, _, _, 0 => fb
  | fb, blk, l, c + 1 =>
    clear_pointers
      (if pointerAt blk l ≠ 0 then bmset fb (pointerAt blk l) false else fb)
      blk (l + 1) c

/-- Per-slot loop of the mount bitmap rebuild (fs.c:166-185).  Returns
`(false, partial bitmap)` when the checked read of an indirect block fails
(fs.c:176 `return false`). -/
def mount_scan_inodes : Disk → (Nat → Bool) → (Nat → Nat) → Nat → Nat →
    Bool × (Nat → Bool)
  | _, fb, _, _, 0 => (true, fb)
  | disk, fb, blk, j, c + 1 =>
    let nd := decodeInode blk j
    if nd.valid ≠ 0 then
      let fb1 := clear_direct fb nd 0 POINTERS_PER_INODE
      if nd.indirect ≠ 0 then
        let fb2 := bmset fb1 nd.indirect false
        match disk_read disk nd.indirect with
        | none => (false, fb2)
        | some ib =>
          mount_scan_inodes disk (clear_pointers fb2 ib 0 POINTERS_PER_BLOCK)
            blk (j + 1) c
      else mount_scan_inodes disk fb1 blk (j + 1) c
    else mount_scan_inodes disk fb blk (j + 1) c

/-- Per-block loop of the mount bitmap rebuild (fs.c:164-186).  The read of
the inode block at fs.c:165 is unchecked: on failure the C buffer keeps its
previous contents, modelled by `prev` (initially the uninitialised stack
buffer, modelled as zeros). -/
def mount_scan : Disk → (Nat → Bool) → (Nat → Nat) → Nat → Nat →
    Bool × (Nat → Bool)
  | _, fb, _, _, 0 => (true, fb)
  | disk, fb, prev, i, c + 1 =>
    let blk := (disk_read disk i).getD prev
    let r := mount_scan_inodes disk fb blk 0 INODES_PER_BLOCK
    if r.1 then mount_scan disk r.2 blk (i + 1) c
    else (false, r.2)

/-- fs_initialize_free_block_bitmap (fs.c:512-520): calloc gives all-false;
each index below `blocks` is set free except `[0, inode_blocks]`. -/
def fs_initialize_free_block_bitmap (sb : SuperBlock) : Nat → Bool :=
  fun i => if i < sb.blocks then (if i ≤ sb.inode_blocks then false else true)
           else false

/-- fs_mount (fs.c:140-188): reject a mounted fs; read and validate block 0
(magic, block count, inode_blocks = ceil(blocks/10), inodes = inode_blocks *
INODES_PER_BLOCK); then cache the superblock, build the bitmap and rebuild it
from the inode table.  A failed indirect-block read mid-scan returns `false`
with `meta_data` and `free_blocks` already set (fs.c:158-159 run first). -/
def fs_mount (fs : FileSystem) (disk : Disk) : Bool × FileSystem :=
  if fs.free_blocks.isSome then (false, fs)
  else
    match disk_read disk 0 with
    | none => (false, fs)
    | some blk0 =>
      let sb := decodeSuper blk0
      if sb.magic_number ≠ MAGIC_NUMBER then (false, fs)
      else if sb.blocks ≠ disk.nblocks then (false, fs)
      else if sb.inode_blocks ≠
          sb.blocks / 10 + (if sb.blocks % 10 ≠ 0 then 1 else 0) then
        (false, fs)
      else if sb.inodes ≠ sb.inode_blocks * INODES_PER_BLOCK % U32MOD then
        (false, fs)
      else
        let fb0 := fs_initialize_free_block_bitmap sb
        let r := mount_scan disk fb0 zeroBlock 1 sb.inode_blocks
        (r.1, { meta_data := sb, free_blocks := some r.2 })

/-- fs_load_inode (fs.c:484-495): read the owning block
(`inode_number / INODES_PER_BLOCK + 1`), extract the slot, fail when the read
fails or the validity flag is unset.  There is no range check against the
inode capacity. -/
def fs_load_inode (disk : Disk) (inode_number : Nat) : Option Inode :=
  let block_num := inode_number / INODES_PER_BLOCK + 1
  let block_index := inode_number - (block_num - 1) * INODES_PER_BLOCK
  match disk_read disk block_num with
  | none => none
  | some ib =>
    let nd := decodeInode ib block_index
    if nd.valid = 0 then none else some nd

/-- fs_save_inode (fs.c:497-510): read the owning block, overwrite the slot,
write the block back; the disk is unchanged on failure. -/
def fs_save_inode (disk : Disk) (inode_number : Nat) (node : Inode) :
    Bool × Disk :=
  let block_num := inode_number / INODES_PER_BLOCK + 1
  let block_index := inode_number - (block_num - 1) * INODES_PER_BLOCK
  match disk_read disk block_num with
  | none => (false, disk)
  | some ib =>
    match disk_write disk block_num (encodeInode ib block_index node) with
    | none => (false, disk)
    | some d2 => (true, d2)

/-- Inner loop of fs_create (fs.c:222-229): scan the slots of block `i` held
in the buffer `blk`; claim the first slot with `valid == 0` by setting its
validity field to 1 and writing the block back.  When that write fails the C
code keeps scanning the (modified) buffer.  Only the validity field is
written; size and pointers are left as stored.  `none` means no slot was
claimed in this block. -/
def create_scan_block : Disk → Nat → (Nat → Nat) → Nat → Nat →
    Option (Int × Disk)
  | _, _, _, _, 0 => none
  | disk, i, blk, j, c + 1 =>
    if u32At blk (32 * j) = 0 then
      let blk2 := setU32 blk (32 * j) 1
      match disk_write disk i blk2 with
      | some d2 => some (((j + (i - 1) * INODES_PER_BLOCK : Nat) : Int), d2)
      | none => create_scan_block disk i blk2 (j + 1) c
    else create_scan_block disk i blk (j + 1) c

/-- Outer loop of fs_create (fs.c:220-231): walk the inode-table blocks in
order; a block whose read fails is skipped. -/
def create_scan : Disk → Nat → Nat → Int × Disk
  | disk, _, 0 => (-1, disk)
  | disk, i, c + 1 =>
    match disk_read disk i with
    | some blk =>
      match create_scan_block disk i blk 0 INODES_PER_BLOCK with
      | some r => r
      | none => create_scan disk (i + 1) c
    | none => create_scan disk (i + 1) c

/-- fs_create (fs.c:217-233): first-fit scan of the inode table; -1 when no
slot could be claimed. -/
def fs_create (fs : FileSystem) (disk : Disk) : Int × Disk :=
  create_scan disk 1 fs.meta_data.inode_blocks

/-- The all-zero inode record `Inode iblank = {0}`. -/
def blankInode : Inode :=
  { valid := 0, size := 0, direct := fun _ => 0, indirect := 0 }

/-- Direct-pointer loop of fs_remove (fs.c:256-261): zero each nonzero direct
block on disk and mark it free; a failed write returns `false` immediately
with the mutations made so far.  The bitmap update dereferences
`fs->free_blocks`; the NULL (unmounted) case would crash in C and is modelled
as a no-op via `Option.map` (never exercised by the theorems). -/
def remove_direct : FileSystem → Disk → Inode → Nat → Nat →
    Bool × FileSystem × Disk
  | fs, disk, _, _, 0 => (true, fs, disk)
  | fs, disk, inode, j, c + 1 =>
    if inode.direct j ≠ 0 then
      match disk_write disk (inode.direct j) zeroBlock with
      | none => (false, fs, disk)
      | some d2 =>
        remove_direct
          { fs with free_blocks :=
              fs.free_blocks.map (fun fb => bmset fb (inode.direct j) true) }
          d2 inode (j + 1) c
    else remove_direct fs disk inode (j + 1) c

/-- Indirect-pointer loop of fs_remove (fs.c:267-273): zero each nonzero
pointed-to block on disk and mark it free.  (The C code also zeroes
`block.pointers[l]` in the local buffer; that buffer is dead afterwards, the
whole indirect block being overwritten with zeros at fs.c:274.) -/
def remove_pointers : FileSystem → Disk → (Nat → Nat) → Nat → Nat →
    Bool × FileSystem × Disk
  | fs, disk, _, _, 0 => (true, fs, disk)
  | fs, disk, blk, l, c + 1 =>
    if pointerAt blk l ≠ 0 then
      match disk_write disk (pointerAt blk l) zeroBlock with
      | none => (false, fs, disk)
      | some d2 =>
        remove_pointers
          { fs with free_blocks :=
              fs.free_blocks.map (fun fb => bmset fb (pointerAt blk l) true) }
          d2 blk (l + 1) c
    else remove_pointers fs disk blk (l + 1) c

/-- fs_remove (fs.c:250-279): load-and-check the inode, release direct
blocks, release the indirect block and its pointees, then overwrite the slot
with the all-zero record.  The result of the final fs_save_inode is not
checked (fs.c:277); its disk is taken whether it succeeded or not. -/
def fs_remove (fs : FileSystem) (disk : Disk) (inode_number : Nat) :
    Bool × FileSystem × Disk :=
  match fs_load_inode disk inode_number with
  | none => (false, fs, disk)
  | some inode =>
    let r1 := remove_direct fs disk inode 0 POINTERS_PER_INODE
    if r1.1 = false then (false, r1.2.1, r1.2.2)
    else
      let fs1 := r1.2.1
      let d1 := r1.2.2
      if inode.indirect ≠ 0 then
        let fs2 : FileSystem :=
          { fs1 with free_blocks :=
              fs1.free_blocks.map (fun fb => bmset fb inode.indirect true) }
        match disk_read d1 inode.indirect with
        | none => (false, fs2, d1)
        | some blk =>
          let r2 := remove_pointers fs2 d1 blk 0 POINTERS_PER_BLOCK
          if r2.1 = false then (false, r2.2.1, r2.2.2)
          else
            match disk_write r2.2.2 inode.indirect zeroBlock with
            | none => (false, r2.2.1, r2.2.2)
            | some d3 =>
              let s := fs_save_inode d3 inode_number blankInode
              (true, r2.2.1, s.2)
      else
        let s := fs_save_inode d1 inode_number blankInode
        (true, fs1, s.2)

/-- fs_stat (fs.c:288-294): the inode's byte size, or -1 when the load
fails. -/
def fs_stat (fs : FileSystem) (disk : Disk) (inode_number : Nat) : Int :=
  match fs_load_inode disk inode_number with
  | none => -1
  | some inode => (inode.size : Int)

/-- fs_read (fs.c:312-370): load the inode, reject out-of-range numbers and
an unmounted fs, then service the request from the single block containing
`offset` — the C code has no loop over further blocks.  `to_read` is
`min(BLOCK_SIZE, (size_t)(inode.size - offset))` with `size_t` wrap-around
when `offset > size`.  The caller's buffer is a function; the bytes
`[0, to_read)` are overwritten from the block starting at
`offset % BLOCK_SIZE`. -/
def fs_read (fs : FileSystem) (disk : Disk) (inode_number : Nat)
    (data : Nat → Nat) (length offset : Nat) : Int × (Nat → Nat) :=
  match fs_load_inode disk inode_number with
  | none => (-1, data)
  | some inode =>
    let curr_iblk := offset / BLOCK_SIZE
    let block_pos := offset % BLOCK_SIZE
    if inode_number ≥ fs.meta_data.inode_blocks * INODES_PER_BLOCK % U32MOD
    then (-1, data)
    else if fs.free_blocks.isNone then (-1, data)
    else if curr_iblk < POINTERS_PER_INODE then
      match disk_read disk (inode.direct curr_iblk) with
      | none => (-1, data)
      | some rb =>
        let sub := if offset ≤ inode.size then inode.size - offset
                   else (inode.size + SIZE_T_MOD - offset) % SIZE_T_MOD
        let to_read := min BLOCK_SIZE sub
        ((to_read : Int),
         fun i => if i < to_read then rb (block_pos + i) else data i)
    else
      if inode.indirect ≠ 0 then
        match disk_read disk inode.indirect with
        | none => (-1, data)
        | some ind_blk =>
          if pointerAt ind_blk (curr_iblk - POINTERS_PER_INODE) ≠ 0 then
            match disk_read disk
                (pointerAt ind_blk (curr_iblk - POINTERS_PER_INODE)) with
            | none => (-1, data)
            | some rb =>
              let sub := if offset ≤ inode.size then inode.size - offset
                         else (inode.size + SIZE_T_MOD - offset) % SIZE_T_MOD
              let to_read := min BLOCK_SIZE sub
              ((to_read : Int),
               fun i => if i < to_read then rb (block_pos + i) else data i)
          else (0, data)
      else (-1, data)

/-- Loop of fs_find_free (fs.c:375-382): first free bitmap index below
`meta_data.blocks`; it is marked not-free, its on-disk contents are zeroed
and it is returned.  A failed zeroing write returns `false`, i.e. 0, with the
bit already cleared (fs.c:379); no free entry also yields 0.  The bitmap
dereference of a NULL `free_blocks` (unmounted fs) would crash in C and is
modelled as an all-false bitmap (never exercised by the theorems). -/
def find_free_loop : FileSystem → Disk → Nat → Nat → Int × FileSystem × Disk
  | fs, disk, _, 0 => (0, fs, disk)
  | fs, disk, i, c + 1 =>
    if (fs.free_blocks.getD (fun _ => false)) i then
      let fs2 : FileSystem :=
        { fs with free_blocks := fs.free_blocks.map (fun fb => bmset fb i false) }
      match disk_write disk i zeroBlock with
      | none => (0, fs2, disk)
      | some d2 => ((i : Int), fs2, d2)
    else find_free_loop fs disk (i + 1) c

/-- fs_find_free (fs.c:373-384). -/
def fs_find_free (fs : FileSystem) (disk : Disk) : Int × FileSystem × Disk :=
  find_free_loop fs disk 0 fs.meta_data.blocks

/-- The END label of fs_write (fs.c:478-481): add the bytes written to the
inode's 32-bit size, persist the inode (result unchecked) and return the
byte count. -/
def fs_write_end (fs : FileSystem) (disk : Disk) (inode : Inode)
    (inode_number bw : Nat) : Int × FileSystem × Disk :=
  let inode2 := { inode with size := (inode.size + bw) % U32MOD }
  let s := fs_save_inode disk inode_number inode2
  ((bw : Int), fs, s.2)

/-- Direct-block loop of fs_write (fs.c:413-437).  Allocates a missing block
via fs_find_free (stopping at the END label when it yields 0), then performs
the read-modify-write.  Note the C `memcpy(old_data.data,
data+bytes_written, to_write)` copies to offset 0 of the block, not to
`block_pos`; this is modelled faithfully.  The unchecked `disk_read` /
`disk_write` keep the stale buffer / old disk on failure.  The returned flag
is `true` when the code jumped to END. -/
def write_direct : FileSystem → Disk → Inode → (Nat → Nat) → Nat →
    Nat → Nat → Nat → Nat → (FileSystem × Disk × Inode × Nat) × Bool
  | fs, disk, inode, _, _, _, bw, _, 0 => ((fs, disk, inode, bw), false)
  | fs, disk, inode, dat, length, i, bw, bp, c + 1 =>
    if inode.direct i = 0 then
      let r := fs_find_free fs disk
      if r.1 = 0 then ((r.2.1, r.2.2, inode, bw), true)
      else
        let inode2 : Inode :=
          { inode with direct := fun k =>
              if k = i then r.1.toNat % U32MOD else inode.direct k }
        let old := (disk_read r.2.2 (inode2.direct i)).getD zeroBlock
        let to_write := if BLOCK_SIZE - bp ≤ length - bw then BLOCK_SIZE - bp
                        else length - bw
        let newblk := fun t => if t < to_write then dat (bw + t) else old t
        let d3 := (disk_write r.2.2 (inode2.direct i) newblk).getD r.2.2
        let bw2 := bw + to_write
        if bw2 = length then ((r.2.1, d3, inode2, bw2), true)
        else write_direct r.2.1 d3 inode2 dat length (i + 1) bw2 0 c
    else
      let old := (disk_read disk (inode.direct i)).getD zeroBlock
      let to_write := if BLOCK_SIZE - bp ≤ length - bw then BLOCK_SIZE - bp
                      else length - bw
      let newblk := fun t => if t < to_write then dat (bw + t) else old t
      let d3 := (disk_write disk (inode.direct i) newblk).getD disk
      let bw2 := bw + to_write
      if bw2 = length then ((fs, d3, inode, bw2), true)
      else write_direct fs d3 inode dat length (i + 1) bw2 0 c

/-- Indirect-block loop of fs_write (fs.c:453-477).  A missing pointer is
allocated and the whole updated indirect block written back at once
(fs.c:459); the data copy then proceeds as in the direct loop, with the same
offset-0 `memcpy` destination. -/
def write_indirect : FileSystem → Disk → Nat → (Nat → Nat) → (Nat → Nat) →
    Nat → Nat → Nat → Nat → Nat → FileSystem × Disk × Nat
  | fs, disk, _, _, _, _, _, bw, _, 0 => (fs, disk, bw)
  | fs, disk, indirect, ind_blk, dat, length, i, bw, bp, c + 1 =>
    if pointerAt ind_blk i = 0 then
      let r := fs_find_free fs disk
      if r.1 = 0 then (r.2.1, r.2.2, bw)
      else
        let ind2 := setU32 ind_blk (4 * i) r.1.toNat
        let d2 := (disk_write r.2.2 indirect ind2).getD r.2.2
        let old := (disk_read d2 (pointerAt ind2 i)).getD zeroBlock
        let to_write := if BLOCK_SIZE - bp ≤ length - bw then BLOCK_SIZE - bp
                        else length - bw
        let newblk := fun t => if t < to_write then dat (bw + t) else old t
        let d3 := (disk_write d2 (pointerAt ind2 i) newblk).getD d2
        let bw2 := bw + to_write
        if bw2 = length then (r.2.1, d3, bw2)
        else write_indirect r.2.1 d3 indirect ind2 dat length (i + 1) bw2 0 c
    else
      let old := (disk_read disk (pointerAt ind_blk i)).getD zeroBlock
      let to_write := if BLOCK_SIZE - bp ≤ length - bw then BLOCK_SIZE - bp
                      else length - bw
      let newblk := fun t => if t < to_write then dat (bw + t) else old t
      let d3 := (disk_write disk (pointerAt ind_blk i) newblk).getD disk
      let bw2 := bw + to_write
      if bw2 = length then (fs, d3, bw2)
      else write_indirect fs d3 indirect ind_blk dat length (i + 1) bw2 0 c

/-- fs_write (fs.c:403-482): load the inode, run the direct loop when the
first logical block is a direct one, then — unless the code jumped to END —
allocate the indirect block if needed (reading it back, freshly zeroed by
fs_find_free, on allocation) and run the indirect loop; finally the END
label.  When the direct loop completes without jumping, `curr_iblk` becomes
POINTERS_PER_INODE and `block_pos` has been reset to 0. -/
def fs_write (fs : FileSystem) (disk : Disk) (inode_number : Nat)
    (dat : Nat → Nat) (length offset : Nat) : Int × FileSystem × Disk :=
  let curr_iblk := offset / BLOCK_SIZE
  let block_pos := offset % BLOCK_SIZE
  match fs_load_inode disk inode_number with
  | none => (-1, fs, disk)
  | some inode0 =>
    let dres : (FileSystem × Disk × Inode × Nat) × Bool :=
      if curr_iblk < POINTERS_PER_INODE then
        write_direct fs disk inode0 dat length curr_iblk 0 block_pos
          (POINTERS_PER_INODE - curr_iblk)
      else ((fs, disk, inode0, 0), false)
    if dres.2 then
      fs_write_end dres.1.1 dres.1.2.1 dres.1.2.2.1 inode_number dres.1.2.2.2
    else
      let fs1 := dres.1.1
      let d1 := dres.1.2.1
      let inode1 := dres.1.2.2.1
      let bw1 := dres.1.2.2.2
      let start := if curr_iblk < POINTERS_PER_INODE then 0
                   else curr_iblk - POINTERS_PER_INODE
      let bp1 := if curr_iblk < POINTERS_PER_INODE then 0 else block_pos
      if inode1.indirect = 0 then
        let r := fs_find_free fs1 d1
        if r.1 = 0 then fs_write_end r.2.1 r.2.2 inode1 inode_number bw1
        else
          let inode2 := { inode1 with indirect := r.1.toNat % U32MOD }
          let ind_blk := (disk_read r.2.2 inode2.indirect).getD zeroBlock
          let w := write_indirect r.2.1 r.2.2 inode2.indirect ind_blk dat
            length start bw1 bp1 (POINTERS_PER_BLOCK - start)
          fs_write_end w.1 w.2.1 inode2 inode_number w.2.2
      else
        let ind_blk := (disk_read d1 inode1.indirect).getD zeroBlock
        let w := write_indirect fs1 d1 inode1.indirect ind_blk dat length
          start bw1 bp1 (POINTERS_PER_BLOCK - start)
        fs_write_end w.1 w.2.1 inode1 inode_number w.2.2

/-- Two disks with the same geometry and failure behaviour (no fs.c
operation ever changes a disk's block count or its environment-failure
flags; only block contents evolve). -/
def sameShape (d2 d : Disk) : Prop :=
  d2.nblocks = d.nblocks ∧ d2.failR = d.failR ∧ d2.failW = d.failW

/- ------------------------------------------------------------------ -/
/- Concrete fixtures used by the theorems below.                       -/
/- ------------------------------------------------------------------ -/

/-- No-failure flag function: every underlying device access succeeds. -/
def noFail : Nat → Bool := fun _ => false

/-- An unmounted file system (NULL free-block bitmap). -/
def fs0 : FileSystem := { meta_data := ⟨0, 0, 0, 0⟩, free_blocks := none }

/-- A freshly opened disk image: disk_open truncates the backing file, so
every block reads as zeros. -/
def freshDisk (n : Nat) : Disk :=
  { nblocks := n, data := fun _ _ => 0, failR := noFail, failW := noFail }

/-- Block-0 bytes of a superblock with the given fields. -/
def sbBytes (blocks ib inodes : Nat) : Nat → Nat :=
  setU32 (setU32 (setU32 (setU32 zeroBlock 0 MAGIC_NUMBER) 4 blocks) 8 ib)
    12 inodes

/-- A correctly formatted, empty 10-block image (1 inode block, 128 inodes). -/
def goodDisk10 : Disk :=
  { nblocks := 10
    data := fun b => if b = 0 then sbBytes 10 1 128 else zeroBlock
    failR := noFail, failW := noFail }

/-- A 10-block image with a valid superblock whose only inode (number 0) is
valid and carries an out-of-range indirect pointer (100 ≥ 10). -/
def diskBadIndirect : Disk :=
  { nblocks := 10
    data := fun b => if b = 0 then sbBytes 10 1 128
      else if b = 1 then encodeInode zeroBlock 0 ⟨1, 0, fun _ => 0, 100⟩
      else zeroBlock
    failR := noFail, failW := noFail }

/-- The mounted FileSystem record for a 10-block image: blocks 0 and 1
reserved, 2..9 free. -/
def fsM10 : FileSystem :=
  { meta_data := ⟨MAGIC_NUMBER, 10, 1, 128⟩
    free_blocks := some (fun i => decide (2 ≤ i) && decide (i < 10)) }

/-- A mounted 10-block image whose inode 0 is valid, empty, with no blocks. -/
def diskEmptyInode : Disk :=
  { nblocks := 10
    data := fun b => if b = 0 then sbBytes 10 1 128
      else if b = 1 then encodeInode zeroBlock 0 ⟨1, 0, fun _ => 0, 0⟩
      else zeroBlock
    failR := noFail, failW := noFail }

/-- A mounted 10-block image whose inode 0 is valid with size 8192 spanning
the two data blocks 2 (bytes 11) and 3 (bytes 22). -/
def diskTwoBlocks : Disk :=
  { nblocks := 10
    data := fun b => if b = 0 then sbBytes 10 1 128
      else if b = 1 then encodeInode zeroBlock 0
        ⟨1, 8192, fun k => if k = 0 then 2 else if k = 1 then 3 else 0, 0⟩
      else if b = 2 then (fun _ => 11)
      else if b = 3 then (fun _ => 22)
      else zeroBlock
    failR := noFail, failW := noFail }

/-- A 10-block image whose inode slot 0 is invalid (`valid = 0`) but carries
a stale size field of 42. -/
def diskStaleSlot : Disk :=
  { nblocks := 10
    data := fun b => if b = 0 then sbBytes 10 1 128
      else if b = 1 then setU32 zeroBlock 4 42
      else zeroBlock
    failR := noFail, failW := noFail }

/-- The mounted FileSystem record for a 20-block image (2 inode blocks,
capacity 256 inodes). -/
def fsM20 : FileSystem :=
  { meta_data := ⟨MAGIC_NUMBER, 20, 2, 256⟩
    free_blocks := some (fun i => decide (3 ≤ i) && decide (i < 20)) }

/-- A 20-block image whose DATA block 3 happens to start with the bytes of a
"valid" inode of size 42 — inode number 256 (out of range) maps there. -/
def diskFakeInode : Disk :=
  { nblocks := 20
    data := fun b => if b = 0 then sbBytes 20 2 256
      else if b = 3 then setU32 (setU32 zeroBlock 0 1) 4 42
      else zeroBlock
    failR := noFail, failW := noFail }

/-- A mounted 10-block file system whose free-block bitmap is exhausted
(every entry false). -/
def fsNoFree : FileSystem :=
  { meta_data := ⟨MAGIC_NUMBER, 10, 1, 128⟩, free_blocks := some noFail }

/-- A 10-block image whose inode 0 is valid, size 0, owning the single data
block 2 (first direct pointer), no indirect block. -/
def diskOneBlock : Disk :=
  { nblocks := 10
    data := fun b => if b = 0 then sbBytes 10 1 128
      else if b = 1 then
        encodeInode zeroBlock 0 ⟨1, 0, fun k => if k = 0 then 2 else 0, 0⟩
      else zeroBlock
    failR := noFail, failW := noFail }

/-- The `diskOneBlock` image on a device whose underlying write to the
inode-table block 1 fails (for exercising the unchecked save of
fs_remove). -/
def diskOneBlockSaveFails : Disk :=
  { diskOneBlock with failW := fun b => decide (b = 1) }

/-- A 10-block image whose single inode-table block has every slot's
validity word nonzero: the inode table is full. -/
def diskFullTable : Disk :=
  { nblocks := 10
    data := fun b => if b = 0 then sbBytes 10 1 128
      else if b = 1 then (fun i => if i % 32 = 0 then 1 else 0)
      else zeroBlock
    failR := noFail, failW := noFail }

/-- A 20-block image that mounts fine but whose valid inode 0 has direct
pointer 1 — an inode-table block. -/
def diskInodePointsAtTable : Disk :=
  { nblocks := 20
    data := fun b => if b = 0 then sbBytes 20 2 256
      else if b = 1 then
        encodeInode zeroBlock 0 ⟨1, 0, fun k => if k = 0 then 1 else 0, 0⟩
      else zeroBlock
    failR := noFail, failW := noFail }

/- ------------------------------------------------------------------ -/
/- C1, C2, C3, C8: closed evaluations of the code at failing inputs.  -/
/- ------------------------------------------------------------------ -/

/-- The loop of fs_format starts at block 1, so block 0 is never written. -/
theorem format_loop_data0 : ∀ (c : Nat) (d : Disk) (i : Nat), 1 ≤ i →
    ((format_loop d i c).2).data 0 = d.data 0 := by
  intro c
  induction c with
  | zero => intro d i _; rfl
  | succ c ih =>
    intro d i h
    show ((match disk_write d i zeroBlock with
      | some d2 => format_loop d2 (i + 1) c
      | none => (false, d)).2).data 0 = d.data 0
    cases hw : disk_write d i zeroBlock with
    | none => rfl
    | some d2 =>
      have h2 : d2.data 0 = d.data 0 := by
        unfold disk_write at hw
        split at hw
        · split at hw
          · cases hw
          · cases hw
            simp only []
            rw [if_neg (by omega)]
        · cases hw
      simpa only [ih d2 (i + 1) (by omega)] using h2

/-- C1: refuted as stated — fs_format never writes the superblock.  The
general conjunct shows block 0 of the device is unchanged by fs_format for
every file system and every disk (the format loop runs from block 1, and no
other write is issued).  On a freshly opened (all-zero) 10-block device
format succeeds and computes inode_blocks = ceil(10/10) = 1 and inodes =
128 in the in-memory superblock, yet the subsequent mount reads magic 0 from
block 0 and fails, contradicting the claimed format-then-mount round trip. -/
theorem c1_format_never_writes_superblock :
    (∀ fs disk, ((fs_format fs disk).2.2).data 0 = disk.data 0) ∧
    (fs_format fs0 (freshDisk 10)).1 = true ∧
    (fs_format fs0 (freshDisk 10)).2.1.meta_data.inode_blocks = 1 ∧
    (fs_format fs0 (freshDisk 10)).2.1.meta_data.inodes = 128 ∧
    u32At ((fs_format fs0 (freshDisk 10)).2.2.data 0) 0 = 0 ∧
    (fs_mount (fs_format fs0 (freshDisk 10)).2.1
      (fs_format fs0 (freshDisk 10)).2.2).1 = false := by
  refine ⟨?_, by decide, by decide, by decide, by decide, by decide⟩
  intro fs disk
  unfold fs_format
  split
  · rfl
  · exact format_loop_data0 _ disk 1 (by omega)

/-- C2: refuted as stated — the read-modify-write of fs_write copies the
data to offset 0 of the block buffer (fs.c:429 `memcpy(old_data.data, ...)`),
not to the intra-block offset.  Writing bytes 65..74 at offset 0 and then
bytes 88,89 at offset 4 leaves the data block holding 88,89 at bytes 0,1 and
the first write's bytes 67..74 at bytes 2..9: bytes [0,4) are NOT preserved
and bytes [4,6) do NOT hold the second write. -/
theorem c2_write_lands_at_block_start :
    (fs_write fsM10 diskEmptyInode 0 (fun i => 65 + i) 10 0).1 = 10 ∧
    ((fs_write (fs_write fsM10 diskEmptyInode 0 (fun i => 65 + i) 10 0).2.1
        (fs_write fsM10 diskEmptyInode 0 (fun i => 65 + i) 10 0).2.2 0
        (fun i => 88 + i) 2 4).1 = 2 ∧
      (fs_write (fs_write fsM10 diskEmptyInode 0 (fun i => 65 + i) 10 0).2.1
        (fs_write fsM10 diskEmptyInode 0 (fun i => 65 + i) 10 0).2.2 0
        (fun i => 88 + i) 2 4).2.2.data 2 0 = 88 ∧
      (fs_write (fs_write fsM10 diskEmptyInode 0 (fun i => 65 + i) 10 0).2.1
        (fs_write fsM10 diskEmptyInode 0 (fun i => 65 + i) 10 0).2.2 0
        (fun i => 88 + i) 2 4).2.2.data 2 1 = 89 ∧
      (fs_write (fs_write fsM10 diskEmptyInode 0 (fun i => 65 + i) 10 0).2.1
        (fs_write fsM10 diskEmptyInode 0 (fun i => 65 + i) 10 0).2.2 0
        (fun i => 88 + i) 2 4).2.2.data 2 4 = 69 ∧
      (fs_write (fs_write fsM10 diskEmptyInode 0 (fun i => 65 + i) 10 0).2.1
        (fs_write fsM10 diskEmptyInode 0 (fun i => 65 + i) 10 0).2.2 0
        (fun i => 88 + i) 2 4).2.2.data 2 5 = 70) := by
  decide

/-- C3: refuted as stated — fs_read copies from a single block only.  On an
inode of size 8192 spanning data blocks 2 and 3 a read of 8192 bytes at
offset 0 returns 4096 and copies only block 2 (bytes 11) into the buffer;
the buffer at and beyond index 4096 keeps its previous contents (99), and
block 3's bytes (22) appear nowhere. -/
theorem c3_read_copies_single_block :
    (fs_read fsM10 diskTwoBlocks 0 (fun _ => 99) 8192 0).1 = 4096 ∧
    (fs_read fsM10 diskTwoBlocks 0 (fun _ => 99) 8192 0).2 0 = 11 ∧
    (fs_read fsM10 diskTwoBlocks 0 (fun _ => 99) 8192 0).2 4095 = 11 ∧
    (fs_read fsM10 diskTwoBlocks 0 (fun _ => 99) 8192 0).2 4096 = 99 ∧
    (fs_read fsM10 diskTwoBlocks 0 (fun _ => 99) 8192 0).2 8000 = 99 := by
  decide

/-- C8: refuted as stated — fs_load_inode performs no range check, so inode
number 256 on a 20-block image (capacity 2 * 128 = 256) is looked up in
block 256/128 + 1 = 3, a DATA block.  When that block's first bytes decode
as a "valid" inode, fs_stat returns a size (42) read from outside the inode
table instead of the -1 sentinel. -/
theorem c8_stat_reads_outside_inode_table :
    fsM20.meta_data.inode_blocks * INODES_PER_BLOCK = 256 ∧
    (fs_load_inode diskFakeInode 256).isSome = true ∧
    fs_stat fsM20 diskFakeInode 256 = 42 := by
  decide

/- ------------------------------------------------------------------ -/
/- Counterexamples for C4, C6, C9.                                    -/
/- ------------------------------------------------------------------ -/

/-- C4 counterexample: on `diskBadIndirect` the file system is unmounted and
all five validations of the claim hold (magic, block count, inode_blocks
formula, inodes formula), yet fs_mount fails: the bitmap rebuild aborts when
the valid inode's indirect pointer 100 cannot be read (100 ≥ 10). -/
theorem c4_counterexample_mount_fails_after_validations :
    fs0.free_blocks.isSome = false ∧
    (decodeSuper (diskBadIndirect.data 0)).magic_number = MAGIC_NUMBER ∧
    (decodeSuper (diskBadIndirect.data 0)).blocks = diskBadIndirect.nblocks ∧
    (decodeSuper (diskBadIndirect.data 0)).inode_blocks =
      (decodeSuper (diskBadIndirect.data 0)).blocks / 10 +
        (if (decodeSuper (diskBadIndirect.data 0)).blocks % 10 ≠ 0 then 1
         else 0) ∧
    (decodeSuper (diskBadIndirect.data 0)).inodes =
      (decodeSuper (diskBadIndirect.data 0)).inode_blocks * INODES_PER_BLOCK %
        U32MOD ∧
    (fs_mount fs0 diskBadIndirect).1 = false := by
  decide

/-- C6 counterexample: inode slot 0 of `diskStaleSlot` is invalid but its
size field holds 42.  fs_create claims it — setting only the validity flag —
and returns inode number 0, after which fs_stat reports the stale 42, not 0:
create does not zero the slot's size and pointers. -/
theorem c6_counterexample_create_keeps_stale_fields :
    u32At (diskStaleSlot.data 1) 0 = 0 ∧
    (fs_create fsM10 diskStaleSlot).1 = 0 ∧
    fs_stat fsM10 (fs_create fsM10 diskStaleSlot).2 0 = 42 := by
  decide

/-- C9 counterexample: `diskInodePointsAtTable` mounts successfully (its
valid inode 0 has direct pointer 1, an inode-table block — mount does not
reject this), and the reachable sequence mount; remove(0) marks block 1 free
in the bitmap, after which fs_find_free returns 1 ≤ inode_blocks = 2. -/
theorem c9_counterexample_find_free_returns_table_block :
    (fs_mount fs0 diskInodePointsAtTable).1 = true ∧
    (fs_mount fs0 diskInodePointsAtTable).2.meta_data.inode_blocks = 2 ∧
    (fs_remove (fs_mount fs0 diskInodePointsAtTable).2
      diskInodePointsAtTable 0).1 = true ∧
    (fs_find_free
      (fs_remove (fs_mount fs0 diskInodePointsAtTable).2
        diskInodePointsAtTable 0).2.1
      (fs_remove (fs_mount fs0 diskInodePointsAtTable).2
        diskInodePointsAtTable 0).2.2).1 = 1 := by
  decide

/- ------------------------------------------------------------------ -/
/- Codec and disk-operation lemmas.                                    -/
/- ------------------------------------------------------------------ -/

/-- Bytes outside `[o, o+4)` are untouched by setU32. -/
theorem setU32_out (blk : Nat → Nat) (o v i : Nat) (h : i < o ∨ o + 4 ≤ i) :
    setU32 blk o v i = blk i := by
  unfold setU32
  rw [if_neg (by omega)]

/-- Reading a u32 away from a setU32 write sees the old bytes. -/
theorem u32At_setU32_out (blk : Nat → Nat) (o v o' : Nat)
    (h : o' + 4 ≤ o ∨ o + 4 ≤ o') :
    u32At (setU32 blk o v) o' = u32At blk o' := by
  unfold u32At
  rw [setU32_out _ _ _ _ (by omega), setU32_out _ _ _ _ (by omega),
    setU32_out _ _ _ _ (by omega), setU32_out _ _ _ _ (by omega)]

/-- Reading a u32 exactly where it was written yields the value mod 2^32. -/
theorem u32At_setU32_self (blk : Nat → Nat) (o v : Nat) :
    u32At (setU32 blk o v) o = v % U32MOD := by
  unfold u32At setU32 U32MOD
  rw [if_pos (by omega), if_pos (by omega), if_pos (by omega),
    if_pos (by omega)]
  simp only [Nat.sub_self, pow_zero, Nat.div_one]
  have h1 : o + 1 - o = 1 := by omega
  have h2 : o + 2 - o = 2 := by omega
  have h3 : o + 3 - o = 3 := by omega
  rw [h1, h2, h3]
  norm_num
  omega

/-- Any u32 field fits in 32 bits. -/
theorem u32At_lt (blk : Nat → Nat) (o : Nat) : u32At blk o < U32MOD := by
  unfold u32At U32MOD
  have h0 := Nat.mod_lt (blk o) (y := 256) (by omega)
  have h1 := Nat.mod_lt (blk (o + 1)) (y := 256) (by omega)
  have h2 := Nat.mod_lt (blk (o + 2)) (y := 256) (by omega)
  have h3 := Nat.mod_lt (blk (o + 3)) (y := 256) (by omega)
  omega

/-- Decoding the slot just encoded: the validity field. -/
theorem decode_encode_valid (blk : Nat → Nat) (j : Nat) (nd : Inode) :
    (decodeInode (encodeInode blk j nd) j).valid = nd.valid % U32MOD := by
  unfold decodeInode encodeInode
  simp only []
  rw [u32At_setU32_out _ _ _ _ (by omega), u32At_setU32_out _ _ _ _ (by omega),
    u32At_setU32_out _ _ _ _ (by omega), u32At_setU32_out _ _ _ _ (by omega),
    u32At_setU32_out _ _ _ _ (by omega), u32At_setU32_out _ _ _ _ (by omega),
    u32At_setU32_out _ _ _ _ (by omega), u32At_setU32_self]

/-- Decoding the slot just encoded: the size field. -/
theorem decode_encode_size (blk : Nat → Nat) (j : Nat) (nd : Inode) :
    (decodeInode (encodeInode blk j nd) j).size = nd.size % U32MOD := by
  unfold decodeInode encodeInode
  simp only []
  rw [u32At_setU32_out _ _ _ _ (by omega), u32At_setU32_out _ _ _ _ (by omega),
    u32At_setU32_out _ _ _ _ (by omega), u32At_setU32_out _ _ _ _ (by omega),
    u32At_setU32_out _ _ _ _ (by omega), u32At_setU32_out _ _ _ _ (by omega),
    u32At_setU32_self]

/-- Specification of a successful disk_write. -/
theorem disk_write_some_spec {d : Disk} {b : Nat} {blk : Nat → Nat} {d2 : Disk}
    (h : disk_write d b blk = some d2) :
    d2.nblocks = d.nblocks ∧ d2.failR = d.failR ∧ d2.failW = d.failW ∧
    d2.data b = blk ∧ ∀ b2, b2 ≠ b → d2.data b2 = d.data b2 := by
  unfold disk_write at h
  split at h
  · split at h
    · cases h
    · cases h
      refine ⟨rfl, rfl, rfl, by simp, ?_⟩
      intro b2 hb2
      simp only []
      rw [if_neg hb2]
  · cases h

/-- disk_write succeeds exactly on an in-range block whose write flag is
clear. -/
theorem disk_write_some_of (d : Disk) (b : Nat) (blk : Nat → Nat)
    (h1 : b < d.nblocks) (h2 : d.failW b = false) :
    disk_write d b blk =
      some { d with data := fun b2 => if b2 = b then blk else d.data b2 } := by
  unfold disk_write
  rw [if_pos h1, h2]
  rfl

/-- disk_write fails on a set write-failure flag. -/
theorem disk_write_none_of (d : Disk) (b : Nat) (blk : Nat → Nat)
    (h2 : d.failW b = true) : disk_write d b blk = none := by
  simp [disk_write, h2]

/-- disk_read succeeds exactly on an in-range block whose read flag is
clear, returning the stored bytes. -/
theorem disk_read_some_of (d : Disk) (b : Nat)
    (h1 : b < d.nblocks) (h2 : d.failR b = false) :
    disk_read d b = some (d.data b) := by
  unfold disk_read
  rw [if_pos h1, h2]
  rfl

/-- What a successful fs_load_inode guarantees. -/
theorem fs_load_inode_some_spec {disk : Disk} {n : Nat} {nd : Inode}
    (h : fs_load_inode disk n = some nd) :
    n / INODES_PER_BLOCK + 1 < disk.nblocks ∧
    disk.failR (n / INODES_PER_BLOCK + 1) = false ∧
    nd = decodeInode (disk.data (n / INODES_PER_BLOCK + 1))
      (n - (n / INODES_PER_BLOCK) * INODES_PER_BLOCK) ∧
    nd.valid ≠ 0 := by
  unfold fs_load_inode at h
  dsimp only [] at h
  split at h
  next heq => cases h
  next ib heq =>
    rw [Nat.add_sub_cancel] at h
    split at h
    next => cases h
    next hv =>
      injection h with h
      subst h
      unfold disk_read at heq
      split at heq
      next hlt =>
        cases hfr : disk.failR (n / INODES_PER_BLOCK + 1) with
        | true => rw [hfr] at heq; cases heq
        | false =>
          rw [hfr] at heq
          injection heq with heq
          subst heq
          exact ⟨hlt, rfl, rfl, hv⟩
      next => cases heq

/- ------------------------------------------------------------------ -/
/- Shape preservation through the write path.                          -/
/- ------------------------------------------------------------------ -/

theorem sameShape_refl (d : Disk) : sameShape d d := ⟨rfl, rfl, rfl⟩

theorem sameShape_trans {d3 d2 d : Disk} (h1 : sameShape d3 d2)
    (h2 : sameShape d2 d) : sameShape d3 d :=
  ⟨h1.1.trans h2.1, h1.2.1.trans h2.2.1, h1.2.2.trans h2.2.2⟩

theorem disk_write_some_shape {d : Disk} {b : Nat} {blk : Nat → Nat}
    {d2 : Disk} (h : disk_write d b blk = some d2) : sameShape d2 d := by
  obtain ⟨h1, h2, h3, _, _⟩ := disk_write_some_spec h
  exact ⟨h1, h2, h3⟩

theorem disk_write_getD_shape (d : Disk) (b : Nat) (blk : Nat → Nat) :
    sameShape ((disk_write d b blk).getD d) d := by
  cases hw : disk_write d b blk with
  | none => exact sameShape_refl d
  | some d2 => exact disk_write_some_shape hw

theorem find_free_loop_shape : ∀ (c : Nat) (fs : FileSystem) (disk : Disk)
    (i : Nat), sameShape (find_free_loop fs disk i c).2.2 disk := by
  intro c
  induction c with
  | zero => exact fun fs disk i => sameShape_refl disk
  | succ c ih =>
    intro fs disk i
    simp only [find_free_loop]
    split
    · cases hw : disk_write disk i zeroBlock with
      | none => exact sameShape_refl disk
      | some d2 => exact disk_write_some_shape hw
    · exact ih fs disk (i + 1)

theorem fs_find_free_shape (fs : FileSystem) (disk : Disk) :
    sameShape (fs_find_free fs disk).2.2 disk :=
  find_free_loop_shape _ fs disk 0

theorem write_direct_shape : ∀ (c : Nat) (fs : FileSystem) (disk : Disk)
    (inode : Inode) (dat : Nat → Nat) (length i bw bp : Nat),
    sameShape (write_direct fs disk inode dat length i bw bp c).1.2.1 disk ∧
    (write_direct fs disk inode dat length i bw bp c).1.2.2.1.valid =
      inode.valid ∧
    (write_direct fs disk inode dat length i bw bp c).1.2.2.1.size =
      inode.size := by
  intro c
  induction c with
  | zero => exact fun fs disk inode dat length i bw bp =>
      ⟨sameShape_refl disk, rfl, rfl⟩
  | succ c ih =>
    intro fs disk inode dat length i bw bp
    simp only [write_direct]
    split
    · -- allocation branch: inode.direct i = 0
      split
      · exact ⟨fs_find_free_shape fs disk, rfl, rfl⟩
      · split <;> split <;>
          first
          | exact ⟨sameShape_trans (disk_write_getD_shape _ _ _)
              (fs_find_free_shape fs disk), rfl, rfl⟩
          | exact ⟨sameShape_trans (ih _ _ _ dat length (i + 1) _ 0).1
              (sameShape_trans (disk_write_getD_shape _ _ _)
                (fs_find_free_shape fs disk)),
              (ih _ _ _ dat length (i + 1) _ 0).2.1,
              (ih _ _ _ dat length (i + 1) _ 0).2.2⟩
    · split <;> split <;>
        first
        | exact ⟨disk_write_getD_shape disk _ _, rfl, rfl⟩
        | exact ⟨sameShape_trans (ih _ _ _ dat length (i + 1) _ 0).1
            (disk_write_getD_shape disk _ _),
            (ih _ _ _ dat length (i + 1) _ 0).2.1,
            (ih _ _ _ dat length (i + 1) _ 0).2.2⟩

theorem write_indirect_shape : ∀ (c : Nat) (fs : FileSystem) (disk : Disk)
    (indirect : Nat) (ind_blk dat : Nat → Nat) (length i bw bp : Nat),
    sameShape
      (write_indirect fs disk indirect ind_blk dat length i bw bp c).2.1
      disk := by
  intro c
  induction c with
  | zero => exact fun fs disk indirect ind_blk dat length i bw bp =>
      sameShape_refl disk
  | succ c ih =>
    intro fs disk indirect ind_blk dat length i bw bp
    simp only [write_indirect]
    split
    · split
      · exact fs_find_free_shape fs disk
      · split <;> split <;>
          first
          | exact sameShape_trans (disk_write_getD_shape _ _ _)
              (sameShape_trans (disk_write_getD_shape _ _ _)
                (fs_find_free_shape fs disk))
          | exact sameShape_trans (ih _ _ indirect _ dat length (i + 1) _ 0)
              (sameShape_trans (disk_write_getD_shape _ _ _)
                (sameShape_trans (disk_write_getD_shape _ _ _)
                  (fs_find_free_shape fs disk)))
    · split <;> split <;>
        first
        | exact disk_write_getD_shape disk _ _
        | exact sameShape_trans (ih _ _ indirect _ dat length (i + 1) _ 0)
            (disk_write_getD_shape disk _ _)

/-- What a successful fs_save_inode does to the disk: the owning block gets
the slot overwritten, every other block is untouched, geometry and failure
flags are preserved. -/
theorem fs_save_inode_spec (disk : Disk) (n : Nat) (node : Inode)
    (hlt : n / INODES_PER_BLOCK + 1 < disk.nblocks)
    (hR : disk.failR (n / INODES_PER_BLOCK + 1) = false)
    (hW : disk.failW (n / INODES_PER_BLOCK + 1) = false) :
    (fs_save_inode disk n node).1 = true ∧
    sameShape (fs_save_inode disk n node).2 disk ∧
    (fs_save_inode disk n node).2.data (n / INODES_PER_BLOCK + 1) =
      encodeInode (disk.data (n / INODES_PER_BLOCK + 1))
        (n - n / INODES_PER_BLOCK * INODES_PER_BLOCK) node ∧
    ∀ b, b ≠ n / INODES_PER_BLOCK + 1 →
      (fs_save_inode disk n node).2.data b = disk.data b := by
  unfold fs_save_inode
  dsimp only []
  rw [Nat.add_sub_cancel, disk_read_some_of disk _ hlt hR]
  dsimp only []
  rw [disk_write_some_of disk _ _ hlt hW]
  dsimp only []
  refine ⟨rfl, sameShape_refl _, by rw [if_pos rfl], ?_⟩
  intro b hb
  rw [if_neg hb]

/-- A failing final write makes fs_save_inode a no-op on the disk. -/
theorem fs_save_inode_fail_spec (disk : Disk) (n : Nat) (node : Inode)
    (hW : disk.failW (n / INODES_PER_BLOCK + 1) = true) :
    (fs_save_inode disk n node).1 = false ∧
    (fs_save_inode disk n node).2 = disk := by
  unfold fs_save_inode
  dsimp only []
  cases hr : disk_read disk (n / INODES_PER_BLOCK + 1) with
  | none => exact ⟨rfl, rfl⟩
  | some ib =>
    dsimp only []
    rw [disk_write_none_of _ _ _ hW]
    exact ⟨rfl, rfl⟩

/-- fs_stat in terms of the decoded slot, for a readable inode-table block. -/
theorem fs_stat_decode (fs2 : FileSystem) (d : Disk) (n : Nat)
    (hlt : n / INODES_PER_BLOCK + 1 < d.nblocks)
    (hR : d.failR (n / INODES_PER_BLOCK + 1) = false) :
    fs_stat fs2 d n =
      if (decodeInode (d.data (n / INODES_PER_BLOCK + 1))
            (n - n / INODES_PER_BLOCK * INODES_PER_BLOCK)).valid = 0 then -1
      else ((decodeInode (d.data (n / INODES_PER_BLOCK + 1))
            (n - n / INODES_PER_BLOCK * INODES_PER_BLOCK)).size : Int) := by
  unfold fs_stat fs_load_inode
  dsimp only []
  rw [Nat.add_sub_cancel, disk_read_some_of d _ hlt hR]
  dsimp only []
  by_cases hv : (decodeInode (d.data (n / INODES_PER_BLOCK + 1))
      (n - n / INODES_PER_BLOCK * INODES_PER_BLOCK)).valid = 0
  · rw [if_pos hv, if_pos hv]
  · rw [if_neg hv, if_neg hv]

/-- The END label: the returned count is the bytes written, and — when the
inode-table block is intact and writable — the persisted inode keeps its
validity and carries the size increased by exactly the bytes written, as
fs_stat then reports. -/
theorem fs_write_end_spec (fs : FileSystem) (disk : Disk) (nd : Inode)
    (n bw : Nat) (orig : Disk) (hshape : sameShape disk orig)
    (hlt : n / INODES_PER_BLOCK + 1 < orig.nblocks)
    (hR : orig.failR (n / INODES_PER_BLOCK + 1) = false)
    (hW : orig.failW (n / INODES_PER_BLOCK + 1) = false)
    (hvalid : nd.valid ≠ 0) (hvlt : nd.valid < U32MOD) :
    (fs_write_end fs disk nd n bw).1 = (bw : Int) ∧
    ∀ fs2, fs_stat fs2 (fs_write_end fs disk nd n bw).2.2 n =
      (((nd.size + bw) % U32MOD : Nat) : Int) := by
  obtain ⟨hnb, hfr, hfw⟩ := hshape
  have hlt' : n / INODES_PER_BLOCK + 1 < disk.nblocks := by rw [hnb]; exact hlt
  have hR' : disk.failR (n / INODES_PER_BLOCK + 1) = false := by
    rw [hfr]; exact hR
  have hW' : disk.failW (n / INODES_PER_BLOCK + 1) = false := by
    rw [hfw]; exact hW
  refine ⟨rfl, ?_⟩
  intro fs2
  obtain ⟨_, hsh2, hdata, _⟩ := fs_save_inode_spec disk n
    { nd with size := (nd.size + bw) % U32MOD } hlt' hR' hW'
  show fs_stat fs2 (fs_save_inode disk n
    { nd with size := (nd.size + bw) % U32MOD }).2 n = _
  rw [fs_stat_decode fs2 _ n (by rw [hsh2.1]; exact hlt')
    (by rw [hsh2.2.1]; exact hR')]
  rw [hdata, decode_encode_valid]
  dsimp only []
  rw [Nat.mod_eq_of_lt hvlt, if_neg hvalid, decode_encode_size]
  dsimp only []
  exact congrArg (fun x : Nat => (x : Int)) (Nat.mod_mod_of_dvd _ dvd_rfl)

/-- Every control path of fs_write on a loadable inode exits through the
END label, carrying an inode whose validity and size fields are those the
load produced and a disk of unchanged geometry. -/
theorem fs_write_via_end (fs : FileSystem) (disk : Disk) (n : Nat)
    (dat : Nat → Nat) (length offset : Nat) (nd : Inode)
    (hload : fs_load_inode disk n = some nd) :
    ∃ fsx dx ndx bw,
      fs_write fs disk n dat length offset = fs_write_end fsx dx ndx n bw ∧
      ndx.valid = nd.valid ∧ ndx.size = nd.size ∧ sameShape dx disk := by
  unfold fs_write
  rw [hload]
  dsimp only []
  by_cases hc : offset / BLOCK_SIZE < POINTERS_PER_INODE
  · rw [if_pos hc]
    obtain ⟨hsh, hv, hs⟩ := write_direct_shape
      (POINTERS_PER_INODE - offset / BLOCK_SIZE) fs disk nd dat length
      (offset / BLOCK_SIZE) 0 (offset % BLOCK_SIZE)
    cases hflag : (write_direct fs disk nd dat length (offset / BLOCK_SIZE) 0
        (offset % BLOCK_SIZE) (POINTERS_PER_INODE - offset / BLOCK_SIZE)).2 with
    | true =>
      rw [if_pos rfl]
      exact ⟨_, _, _, _, rfl, hv, hs, hsh⟩
    | false =>
      rw [if_neg Bool.false_ne_true]
      rw [if_pos hc]
      split
      · split
        · exact ⟨_, _, _, _, rfl, hv, hs,
            sameShape_trans (fs_find_free_shape _ _) hsh⟩
        · exact ⟨_, _, _, _, rfl, hv, hs,
            sameShape_trans (write_indirect_shape _ _ _ _ _ dat length _ _ 0)
              (sameShape_trans (fs_find_free_shape _ _) hsh)⟩
      · exact ⟨_, _, _, _, rfl, hv, hs,
          sameShape_trans (write_indirect_shape _ _ _ _ _ dat length _ _ _)
            hsh⟩
  · rw [if_neg hc]
    rw [if_neg Bool.false_ne_true]
    rw [if_neg hc]
    split
    · split
      · exact ⟨_, _, _, _, rfl, rfl, rfl, fs_find_free_shape _ _⟩
      · exact ⟨_, _, _, _, rfl, rfl, rfl,
          sameShape_trans (write_indirect_shape _ _ _ _ _ dat length _ _ _)
            (fs_find_free_shape _ _)⟩
    · exact ⟨_, _, _, _, rfl, rfl, rfl,
        write_indirect_shape _ _ _ _ _ dat length _ _ _⟩

/-- C5: whenever fs_write can load its inode (and the inode-table block is
writable), it returns a nonnegative byte count — in particular when
fs_find_free reports no free block mid-operation the bytes already written
are returned as a success, never the -1 hard-failure — and the persisted
inode's recorded size, as fs_stat then reports, is increased by exactly the
returned count (32-bit arithmetic). -/
theorem c5_short_write_partial_success (fs : FileSystem) (disk : Disk)
    (n : Nat) (dat : Nat → Nat) (length offset : Nat) (nd : Inode)
    (hload : fs_load_inode disk n = some nd)
    (hW : disk.failW (n / INODES_PER_BLOCK + 1) = false) :
    ∃ bw : Nat, (fs_write fs disk n dat length offset).1 = (bw : Int) ∧
      ∀ fs2, fs_stat fs2 (fs_write fs disk n dat length offset).2.2 n =
        (((nd.size + bw) % U32MOD : Nat) : Int) := by
  obtain ⟨hlt, hR, hdec, hval⟩ := fs_load_inode_some_spec hload
  obtain ⟨fsx, dx, ndx, bw, heq, hv, hs, hsh⟩ :=
    fs_write_via_end fs disk n dat length offset nd hload
  have hvlt : ndx.valid < U32MOD := by
    rw [hv, hdec]
    exact u32At_lt _ _
  have hvne : ndx.valid ≠ 0 := by rw [hv]; exact hval
  obtain ⟨h1, h2⟩ := fs_write_end_spec fsx dx ndx n bw disk hsh hlt hR hW
    hvne hvlt
  refine ⟨bw, ?_, ?_⟩
  · rw [heq, h1]
  · intro fs2
    rw [heq, h2 fs2, hs]

/-- Witness for C5: a mounted 10-block image whose bitmap has no free
block; inode 0 owns one data block.  Writing 5000 bytes at offset 0 fills
the existing block (4096 bytes) and then stops when allocation fails; the
hypotheses of the theorem are discharged concretely. -/
theorem c5_short_write_partial_success_witness :
    ∃ bw : Nat,
      (fs_write fsNoFree diskOneBlock 0 (fun i => i % 256) 5000 0).1 =
        (bw : Int) ∧
      ∀ fs2, fs_stat fs2
          (fs_write fsNoFree diskOneBlock 0 (fun i => i % 256) 5000 0).2.2 0 =
        ((((decodeInode (diskOneBlock.data 1) 0).size + bw) % U32MOD :
          Nat) : Int) :=
  c5_short_write_partial_success fsNoFree diskOneBlock 0 (fun i => i % 256)
    5000 0 (decodeInode (diskOneBlock.data 1) 0) rfl (by decide)

/- ------------------------------------------------------------------ -/
/- fs_remove loop specifications (shared by C7 and C10).               -/
/- ------------------------------------------------------------------ -/

theorem fs_stat_of_load_none {d : Disk} {n : Nat} (fs2 : FileSystem)
    (h : fs_load_inode d n = none) : fs_stat fs2 d n = -1 := by
  unfold fs_stat
  rw [h]

theorem fs_read_of_load_none {d : Disk} {n : Nat} (fs2 : FileSystem)
    (buf : Nat → Nat) (len off : Nat) (h : fs_load_inode d n = none) :
    (fs_read fs2 d n buf len off).1 = -1 := by
  unfold fs_read
  rw [h]

theorem fs_remove_of_load_none {d : Disk} {n : Nat} (fs3 : FileSystem)
    (h : fs_load_inode d n = none) : fs_remove fs3 d n = (false, fs3, d) := by
  unfold fs_remove
  rw [h]

/-- A slot just overwritten with the blank record does not load. -/
theorem fs_load_none_of_blank (d : Disk) (n : Nat) (blk : Nat → Nat)
    (hlt : n / INODES_PER_BLOCK + 1 < d.nblocks)
    (hR : d.failR (n / INODES_PER_BLOCK + 1) = false)
    (hdata : d.data (n / INODES_PER_BLOCK + 1) =
      encodeInode blk (n - n / INODES_PER_BLOCK * INODES_PER_BLOCK)
        blankInode) :
    fs_load_inode d n = none := by
  unfold fs_load_inode
  dsimp only []
  rw [Nat.add_sub_cancel, disk_read_some_of d _ hlt hR]
  dsimp only []
  rw [hdata]
  rw [if_pos (by rw [decode_encode_valid]; rfl)]

/-- What the direct-pointer loop of fs_remove does when every nonzero
pointer in range is writable: it succeeds, preserves the disk geometry,
only writes zero blocks (and only at the pointers it visits), and marks
each visited nonzero pointer free in the bitmap without ever clearing a
bit. -/
theorem remove_direct_spec : ∀ (c : Nat) (fs : FileSystem) (disk : Disk)
    (inode : Inode) (j : Nat),
    (∀ k, j ≤ k → k < j + c → inode.direct k ≠ 0 →
      inode.direct k < disk.nblocks ∧ disk.failW (inode.direct k) = false) →
    (remove_direct fs disk inode j c).1 = true ∧
    sameShape (remove_direct fs disk inode j c).2.2 disk ∧
    (∀ b, (∀ k, j ≤ k → k < j + c → inode.direct k ≠ b) →
      (remove_direct fs disk inode j c).2.2.data b = disk.data b) ∧
    (∀ b, (remove_direct fs disk inode j c).2.2.data b = zeroBlock ∨
      (remove_direct fs disk inode j c).2.2.data b = disk.data b) ∧
    (∀ k, j ≤ k → k < j + c → inode.direct k ≠ 0 →
      (remove_direct fs disk inode j c).2.2.data (inode.direct k) =
        zeroBlock) ∧
    (∀ fb, fs.free_blocks = some fb → ∃ fb2,
      (remove_direct fs disk inode j c).2.1.free_blocks = some fb2 ∧
      (∀ i, fb i = true → fb2 i = true) ∧
      (∀ k, j ≤ k → k < j + c → inode.direct k ≠ 0 →
        fb2 (inode.direct k) = true)) := by
  intro c
  induction c with
  | zero =>
    intro fs disk inode j _
    exact ⟨rfl, sameShape_refl _, fun b _ => rfl, fun b => Or.inr rfl,
      fun k hk1 hk2 _ => absurd hk2 (by omega),
      fun fb hfb => ⟨fb, hfb, fun i h => h, fun k hk1 hk2 _ =>
        absurd hk2 (by omega)⟩⟩
  | succ c ih =>
    intro fs disk inode j hdir
    simp only [remove_direct]
    by_cases hz : inode.direct j ≠ 0
    · rw [if_pos hz]
      obtain ⟨hlt, hW⟩ := hdir j (le_refl j) (by omega) hz
      rw [disk_write_some_of disk _ _ hlt hW]
      set d2 : Disk := { disk with data := fun b2 =>
        if (b2 = inode.direct j) then zeroBlock else disk.data b2 } with hd2
      set fs2 : FileSystem := { fs with free_blocks :=
        (fs.free_blocks.map (fun fb => bmset fb (inode.direct j) true)) }
        with hfs2
      have hd2b : ∀ b, d2.data b =
          if (b = inode.direct j) then zeroBlock else disk.data b :=
        fun b => rfl
      have hdir2 : ∀ k, j + 1 ≤ k → k < j + 1 + c → inode.direct k ≠ 0 →
          inode.direct k < d2.nblocks ∧ d2.failW (inode.direct k) = false :=
        fun k h1 h2 h3 => hdir k (by omega) (by omega) h3
      obtain ⟨ih1, ih2, ih3, ih4, ih5, ih6⟩ := ih fs2 d2 inode (j + 1) hdir2
      refine ⟨ih1, sameShape_trans ih2 ⟨rfl, rfl, rfl⟩, ?_, ?_, ?_, ?_⟩
      · intro b hb
        rw [ih3 b (fun k h1 h2 => hb k (by omega) (by omega)), hd2b,
          if_neg (fun h => hb j (le_refl j) (by omega) h.symm)]
      · intro b
        rcases ih4 b with h | h
        · exact Or.inl h
        · by_cases hbj : b = inode.direct j
          · refine Or.inl (h.trans ?_)
            rw [hd2b, if_pos hbj]
          · refine Or.inr (h.trans ?_)
            rw [hd2b, if_neg hbj]
      · intro k hk1 hk2 hk3
        rcases Nat.eq_or_lt_of_le hk1 with hkj | hkj
        · subst hkj
          rcases ih4 (inode.direct j) with h | h
          · exact h
          · rw [h, hd2b, if_pos rfl]
        · exact ih5 k (by omega) (by omega) hk3
      · intro fb hfb
        obtain ⟨fb2, h1, h2, h3⟩ := ih6 (bmset fb (inode.direct j) true)
          (by rw [hfs2]; dsimp only []; rw [hfb]; rfl)
        refine ⟨fb2, h1, ?_, ?_⟩
        · intro i hi
          exact h2 i (by unfold bmset; split <;> [rfl; exact hi])
        · intro k hk1 hk2 hk3
          rcases Nat.eq_or_lt_of_le hk1 with hkj | hkj
          · subst hkj
            exact h2 _ (by unfold bmset; rw [if_pos rfl])
          · exact h3 k (by omega) (by omega) hk3
    · rw [if_neg hz]
      push_neg at hz
      have hdir2 : ∀ k, j + 1 ≤ k → k < j + 1 + c → inode.direct k ≠ 0 →
          inode.direct k < disk.nblocks ∧
          disk.failW (inode.direct k) = false :=
        fun k h1 h2 h3 => hdir k (by omega) (by omega) h3
      obtain ⟨ih1, ih2, ih3, ih4, ih5, ih6⟩ := ih fs disk inode (j + 1) hdir2
      refine ⟨ih1, ih2, ?_, ih4, ?_, ?_⟩
      · intro b hb
        exact ih3 b (fun k h1 h2 => hb k (by omega) (by omega))
      · intro k hk1 hk2 hk3
        rcases Nat.eq_or_lt_of_le hk1 with hkj | hkj
        · subst hkj
          exact absurd hz hk3
        · exact ih5 k (by omega) (by omega) hk3
      · intro fb hfb
        obtain ⟨fb2, h1, h2, h3⟩ := ih6 fb hfb
        refine ⟨fb2, h1, h2, ?_⟩
        intro k hk1 hk2 hk3
        rcases Nat.eq_or_lt_of_le hk1 with hkj | hkj
        · subst hkj
          exact absurd hz hk3
        · exact h3 k (by omega) (by omega) hk3

/-- What the indirect-pointer loop of fs_remove does when every nonzero
pointer in range is writable — the exact analogue of
`remove_direct_spec` for the pointers of the indirect block. -/
theorem remove_pointers_spec : ∀ (c : Nat) (fs : FileSystem) (disk : Disk)
    (blk : Nat → Nat) (j : Nat),
    (∀ k, j ≤ k → k < j + c → pointerAt blk k ≠ 0 →
      pointerAt blk k < disk.nblocks ∧ disk.failW (pointerAt blk k) = false) →
    (remove_pointers fs disk blk j c).1 = true ∧
    sameShape (remove_pointers fs disk blk j c).2.2 disk ∧
    (∀ b, (∀ k, j ≤ k → k < j + c → pointerAt blk k ≠ b) →
      (remove_pointers fs disk blk j c).2.2.data b = disk.data b) ∧
    (∀ b, (remove_pointers fs disk blk j c).2.2.data b = zeroBlock ∨
      (remove_pointers fs disk blk j c).2.2.data b = disk.data b) ∧
    (∀ k, j ≤ k → k < j + c → pointerAt blk k ≠ 0 →
      (remove_pointers fs disk blk j c).2.2.data (pointerAt blk k) =
        zeroBlock) ∧
    (∀ fb, fs.free_blocks = some fb → ∃ fb2,
      (remove_pointers fs disk blk j c).2.1.free_blocks = some fb2 ∧
      (∀ i, fb i = true → fb2 i = true) ∧
      (∀ k, j ≤ k → k < j + c → pointerAt blk k ≠ 0 →
        fb2 (pointerAt blk k) = true)) := by
  intro c
  induction c with
  | zero =>
    intro fs disk blk j _
    exact ⟨rfl, sameShape_refl _, fun b _ => rfl, fun b => Or.inr rfl,
      fun k hk1 hk2 _ => absurd hk2 (by omega),
      fun fb hfb => ⟨fb, hfb, fun i h => h, fun k hk1 hk2 _ =>
        absurd hk2 (by omega)⟩⟩
  | succ c ih =>
    intro fs disk blk j hdir
    simp only [remove_pointers]
    by_cases hz : pointerAt blk j ≠ 0
    · rw [if_pos hz]
      obtain ⟨hlt, hW⟩ := hdir j (le_refl j) (by omega) hz
      rw [disk_write_some_of disk _ _ hlt hW]
      set d2 : Disk := { disk with data := fun b2 =>
        if (b2 = pointerAt blk j) then zeroBlock else disk.data b2 } with hd2
      set fs2 : FileSystem := { fs with free_blocks :=
        (fs.free_blocks.map (fun fb => bmset fb (pointerAt blk j) true)) }
        with hfs2
      have hd2b : ∀ b, d2.data b =
          if (b = pointerAt blk j) then zeroBlock else disk.data b :=
        fun b => rfl
      have hdir2 : ∀ k, j + 1 ≤ k → k < j + 1 + c → pointerAt blk k ≠ 0 →
          pointerAt blk k < d2.nblocks ∧
          d2.failW (pointerAt blk k) = false :=
        fun k h1 h2 h3 => hdir k (by omega) (by omega) h3
      obtain ⟨ih1, ih2, ih3, ih4, ih5, ih6⟩ := ih fs2 d2 blk (j + 1) hdir2
      refine ⟨ih1, sameShape_trans ih2 ⟨rfl, rfl, rfl⟩, ?_, ?_, ?_, ?_⟩
      · intro b hb
        rw [ih3 b (fun k h1 h2 => hb k (by omega) (by omega)), hd2b,
          if_neg (fun h => hb j (le_refl j) (by omega) h.symm)]
      · intro b
        rcases ih4 b with h | h
        · exact Or.inl h
        · by_cases hbj : b = pointerAt blk j
          · refine Or.inl (h.trans ?_)
            rw [hd2b, if_pos hbj]
          · refine Or.inr (h.trans ?_)
            rw [hd2b, if_neg hbj]
      · intro k hk1 hk2 hk3
        rcases Nat.eq_or_lt_of_le hk1 with hkj | hkj
        · subst hkj
          rcases ih4 (pointerAt blk j) with h | h
          · exact h
          · rw [h, hd2b, if_pos rfl]
        · exact ih5 k (by omega) (by omega) hk3
      · intro fb hfb
        obtain ⟨fb2, h1, h2, h3⟩ := ih6 (bmset fb (pointerAt blk j) true)
          (by rw [hfs2]; dsimp only []; rw [hfb]; rfl)
        refine ⟨fb2, h1, ?_, ?_⟩
        · intro i hi
          exact h2 i (by unfold bmset; split <;> [rfl; exact hi])
        · intro k hk1 hk2 hk3
          rcases Nat.eq_or_lt_of_le hk1 with hkj | hkj
          · subst hkj
            exact h2 _ (by unfold bmset; rw [if_pos rfl])
          · exact h3 k (by omega) (by omega) hk3
    · rw [if_neg hz]
      push_neg at hz
      have hdir2 : ∀ k, j + 1 ≤ k → k < j + 1 + c → pointerAt blk k ≠ 0 →
          pointerAt blk k < disk.nblocks ∧
          disk.failW (pointerAt blk k) = false :=
        fun k h1 h2 h3 => hdir k (by omega) (by omega) h3
      obtain ⟨ih1, ih2, ih3, ih4, ih5, ih6⟩ := ih fs disk blk (j + 1) hdir2
      refine ⟨ih1, ih2, ?_, ih4, ?_, ?_⟩
      · intro b hb
        exact ih3 b (fun k h1 h2 => hb k (by omega) (by omega))
      · intro k hk1 hk2 hk3
        rcases Nat.eq_or_lt_of_le hk1 with hkj | hkj
        · subst hkj
          exact absurd hz hk3
        · exact ih5 k (by omega) (by omega) hk3
      · intro fb hfb
        obtain ⟨fb2, h1, h2, h3⟩ := ih6 fb hfb
        refine ⟨fb2, h1, h2, ?_⟩
        intro k hk1 hk2 hk3
        rcases Nat.eq_or_lt_of_le hk1 with hkj | hkj
        · subst hkj
          exact absurd hz hk3
        · exact h3 k (by omega) (by omega) hk3

/-- A successful run of fs_remove, before the final (unchecked) save: under
writability of every referenced block, remove returns true with the disk it
hands to fs_save_inode having every referenced block zeroed, everything
else intact, and the bitmap having gained exactly the referenced blocks. -/
theorem fs_remove_success_spec (fs : FileSystem) (disk : Disk) (n : Nat)
    (nd : Inode)
    (hload : fs_load_inode disk n = some nd)
    (hdir : ∀ k, k < POINTERS_PER_INODE → nd.direct k ≠ 0 →
      nd.direct k < disk.nblocks ∧ disk.failW (nd.direct k) = false)
    (hind : nd.indirect ≠ 0 →
      nd.indirect < disk.nblocks ∧ disk.failR nd.indirect = false ∧
      disk.failW nd.indirect = false ∧
      (∀ k, k < POINTERS_PER_INODE → nd.direct k ≠ nd.indirect) ∧
      (∀ l, l < POINTERS_PER_BLOCK →
        pointerAt (disk.data nd.indirect) l ≠ 0 →
        pointerAt (disk.data nd.indirect) l < disk.nblocks ∧
        disk.failW (pointerAt (disk.data nd.indirect) l) = false)) :
    ∃ fsR dPre,
      fs_remove fs disk n =
        (true, fsR, (fs_save_inode dPre n blankInode).2) ∧
      sameShape dPre disk ∧
      (∀ b, dPre.data b = zeroBlock ∨ dPre.data b = disk.data b) ∧
      (∀ k, k < POINTERS_PER_INODE → nd.direct k ≠ 0 →
        dPre.data (nd.direct k) = zeroBlock) ∧
      (nd.indirect ≠ 0 → dPre.data nd.indirect = zeroBlock ∧
        (∀ l, l < POINTERS_PER_BLOCK →
          pointerAt (disk.data nd.indirect) l ≠ 0 →
          dPre.data (pointerAt (disk.data nd.indirect) l) = zeroBlock)) ∧
      (∀ b, (∀ k, k < POINTERS_PER_INODE → nd.direct k ≠ b) →
        (nd.indirect ≠ 0 → nd.indirect ≠ b ∧
          ∀ l, l < POINTERS_PER_BLOCK →
            pointerAt (disk.data nd.indirect) l ≠ b) →
        dPre.data b = disk.data b) ∧
      (∀ fb, fs.free_blocks = some fb → ∃ fb2,
        fsR.free_blocks = some fb2 ∧
        (∀ i, fb i = true → fb2 i = true) ∧
        (∀ k, k < POINTERS_PER_INODE → nd.direct k ≠ 0 →
          fb2 (nd.direct k) = true) ∧
        (nd.indirect ≠ 0 → fb2 nd.indirect = true ∧
          ∀ l, l < POINTERS_PER_BLOCK →
            pointerAt (disk.data nd.indirect) l ≠ 0 →
            fb2 (pointerAt (disk.data nd.indirect) l) = true)) := by
  unfold fs_remove
  rw [hload]
  dsimp only []
  obtain ⟨d1ok, d1sh, d1frame, d1zo, d1zeroed, d1bm⟩ :=
    remove_direct_spec POINTERS_PER_INODE fs disk nd 0
      (fun k _ h2 h3 => hdir k (by omega) h3)
  rw [if_neg (by rw [d1ok]; exact fun h => Bool.noConfusion h)]
  by_cases hi : nd.indirect ≠ 0
  · rw [if_pos hi]
    obtain ⟨hilt, hiR, hiW, hidisj, hiptr⟩ := hind hi
    have hd1data : (remove_direct fs disk nd 0 POINTERS_PER_INODE).2.2.data
        nd.indirect = disk.data nd.indirect :=
      d1frame nd.indirect (fun k _ h2 => hidisj k (by omega))
    rw [disk_read_some_of _ _ (by rw [d1sh.1]; exact hilt)
      (by rw [d1sh.2.1]; exact hiR)]
    dsimp only []
    rw [hd1data]
    obtain ⟨p1ok, p1sh, p1frame, p1zo, p1zeroed, p1bm⟩ :=
      remove_pointers_spec POINTERS_PER_BLOCK
        { (remove_direct fs disk nd 0 POINTERS_PER_INODE).2.1 with
          free_blocks :=
            ((remove_direct fs disk nd 0 POINTERS_PER_INODE).2.1.free_blocks.map
              (fun fb => bmset fb nd.indirect true)) }
        (remove_direct fs disk nd 0 POINTERS_PER_INODE).2.2
        (disk.data nd.indirect) 0
        (fun l _ h2 h3 => ⟨by rw [d1sh.1]; exact (hiptr l (by omega) h3).1,
          by rw [d1sh.2.2]; exact (hiptr l (by omega) h3).2⟩)
    rw [if_neg (by rw [p1ok]; exact fun h => Bool.noConfusion h)]
    rw [disk_write_some_of _ _ _ (by rw [p1sh.1, d1sh.1]; exact hilt)
      (by rw [p1sh.2.2, d1sh.2.2]; exact hiW)]
    dsimp only []
    refine ⟨_, _, rfl, ?_, ?_, ?_, ?_, ?_, ?_⟩
    · exact sameShape_trans ⟨rfl, rfl, rfl⟩ (sameShape_trans p1sh d1sh)
    · intro b
      show ((if (b = nd.indirect) then zeroBlock else _) = zeroBlock) ∨
        ((if (b = nd.indirect) then zeroBlock else _) = disk.data b)
      by_cases hbi : b = nd.indirect
      · exact Or.inl (by rw [if_pos hbi])
      · rw [if_neg hbi]
        rcases p1zo b with h | h
        · exact Or.inl h
        · rw [h]
          exact d1zo b
    · intro k hk h3
      by_cases hbi : nd.direct k = nd.indirect
      · show (if (nd.direct k = nd.indirect) then zeroBlock else _) =
          zeroBlock
        rw [if_pos hbi]
      · show (if (nd.direct k = nd.indirect) then zeroBlock else
          (remove_pointers _ _ _ 0 POINTERS_PER_BLOCK).2.2.data
            (nd.direct k)) = zeroBlock
        rw [if_neg hbi]
        rcases p1zo (nd.direct k) with h | h
        · exact h
        · rw [h]
          exact d1zeroed k (by omega) (by omega) h3
    · intro _
      constructor
      · show (if (nd.indirect = nd.indirect) then zeroBlock else _) =
          zeroBlock
        rw [if_pos rfl]
      · intro l hl h3
        by_cases hbi : pointerAt (disk.data nd.indirect) l = nd.indirect
        · show (if (pointerAt (disk.data nd.indirect) l = nd.indirect) then
            zeroBlock else _) = zeroBlock
          rw [if_pos hbi]
        · show (if (pointerAt (disk.data nd.indirect) l = nd.indirect) then
            zeroBlock else
            (remove_pointers _ _ _ 0 POINTERS_PER_BLOCK).2.2.data
              (pointerAt (disk.data nd.indirect) l)) = zeroBlock
          rw [if_neg hbi]
          exact p1zeroed l (by omega) (by omega) h3
    · intro b hb hb2
      obtain ⟨hne, hptr⟩ := hb2 hi
      show (if (b = nd.indirect) then zeroBlock else
        (remove_pointers _ _ _ 0 POINTERS_PER_BLOCK).2.2.data b) =
          disk.data b
      rw [if_neg (fun h => hne h.symm)]
      rw [p1frame b (fun l _ h2 => hptr l (by omega))]
      exact d1frame b (fun k _ h2 => hb k (by omega))
    · intro fb hfb
      obtain ⟨fb2, h1, h2, h3⟩ := d1bm fb hfb
      obtain ⟨fb3, g1, g2, g3⟩ := p1bm (bmset fb2 nd.indirect true)
        (by dsimp only []; rw [h1]; rfl)
      refine ⟨fb3, g1, ?_, ?_, ?_⟩
      · intro i hitrue
        exact g2 i (by unfold bmset; split <;> [rfl; exact h2 i hitrue])
      · intro k hk h4
        refine g2 _ ?_
        unfold bmset
        split
        · rfl
        · exact h3 k (by omega) (by omega) h4
      · intro _
        refine ⟨g2 _ (by unfold bmset; rw [if_pos rfl]), ?_⟩
        intro l hl h4
        exact g3 l (by omega) (by omega) h4
  · rw [if_neg hi]
    refine ⟨_, _, rfl, d1sh, d1zo, fun k hk h3 => d1zeroed k (by omega)
      (by omega) h3, fun h => absurd h hi, ?_, ?_⟩
    · intro b hb _
      exact d1frame b (fun k _ h2 => hb k (by omega))
    · intro fb hfb
      obtain ⟨fb2, h1, h2, h3⟩ := d1bm fb hfb
      exact ⟨fb2, h1, h2, fun k hk h4 => h3 k (by omega) (by omega) h4,
        fun h => absurd h hi⟩

/-- C7: fs_remove fails on an inode that does not load (invalid or
unreadable); and after a successful remove — every referenced block being
writable and the inode-table block intact — the slot holds the all-zero
invalid record on disk, so stat, read and a second remove on that number
all fail. -/
theorem c7_remove_then_ops_fail (fs : FileSystem) (disk : Disk) (n : Nat)
    (nd : Inode)
    (hload : fs_load_inode disk n = some nd)
    (hdir : ∀ k, k < POINTERS_PER_INODE → nd.direct k ≠ 0 →
      nd.direct k < disk.nblocks ∧ disk.failW (nd.direct k) = false)
    (hind : nd.indirect ≠ 0 →
      nd.indirect < disk.nblocks ∧ disk.failR nd.indirect = false ∧
      disk.failW nd.indirect = false ∧
      (∀ k, k < POINTERS_PER_INODE → nd.direct k ≠ nd.indirect) ∧
      (∀ l, l < POINTERS_PER_BLOCK →
        pointerAt (disk.data nd.indirect) l ≠ 0 →
        pointerAt (disk.data nd.indirect) l < disk.nblocks ∧
        disk.failW (pointerAt (disk.data nd.indirect) l) = false))
    (hWtb : disk.failW (n / INODES_PER_BLOCK + 1) = false) :
    (fs_remove fs disk n).1 = true ∧
    (∀ fs2, fs_stat fs2 (fs_remove fs disk n).2.2 n = -1) ∧
    (∀ fs2 buf len off,
      (fs_read fs2 (fs_remove fs disk n).2.2 n buf len off).1 = -1) ∧
    (∀ fs2, (fs_remove fs2 (fs_remove fs disk n).2.2 n).1 = false) ∧
    (∀ fs3 d3 m, fs_load_inode d3 m = none →
      fs_remove fs3 d3 m = (false, fs3, d3)) := by
  obtain ⟨hlt, hR, _, _⟩ := fs_load_inode_some_spec hload
  obtain ⟨fsR, dPre, heq, hsh, _, _, _, _, _⟩ :=
    fs_remove_success_spec fs disk n nd hload hdir hind
  obtain ⟨sok, ssh, sdata, _⟩ := fs_save_inode_spec dPre n blankInode
    (by rw [hsh.1]; exact hlt) (by rw [hsh.2.1]; exact hR)
    (by rw [hsh.2.2]; exact hWtb)
  have hnone : fs_load_inode (fs_save_inode dPre n blankInode).2 n = none :=
    fs_load_none_of_blank _ n _ (by rw [ssh.1, hsh.1]; exact hlt)
      (by rw [ssh.2.1, hsh.2.1]; exact hR) sdata
  rw [heq]
  exact ⟨rfl, fun fs2 => fs_stat_of_load_none fs2 hnone,
    fun fs2 buf len off => fs_read_of_load_none fs2 buf len off hnone,
    fun fs2 => by rw [fs_remove_of_load_none fs2 hnone],
    fun fs3 d3 m h => fs_remove_of_load_none fs3 h⟩

/-- Witness for C7: remove inode 0 (one direct block) on a mounted 10-block
image; afterwards stat, read and remove on inode 0 all fail. -/
theorem c7_remove_then_ops_fail_witness :
    (fs_remove fsM10 diskOneBlock 0).1 = true ∧
    (∀ fs2, fs_stat fs2 (fs_remove fsM10 diskOneBlock 0).2.2 0 = -1) ∧
    (∀ fs2 buf len off,
      (fs_read fs2 (fs_remove fsM10 diskOneBlock 0).2.2 0 buf len off).1 =
        -1) ∧
    (∀ fs2, (fs_remove fs2 (fs_remove fsM10 diskOneBlock 0).2.2 0).1 =
      false) ∧
    (∀ fs3 d3 m, fs_load_inode d3 m = none →
      fs_remove fs3 d3 m = (false, fs3, d3)) :=
  c7_remove_then_ops_fail fsM10 diskOneBlock 0
    (decodeInode (diskOneBlock.data 1) 0) rfl (by decide) (by decide)
    (by decide)

/-- C10: when every referenced block is writable but the write of the
inode-table block fails, fs_remove still returns success while the final
save silently fails: the inode-table block is unchanged on disk (the inode
still loads as valid), every referenced block has been zeroed, and the
bitmap has them marked free. -/
theorem c10_remove_ignores_failed_save (fs : FileSystem) (disk : Disk)
    (n : Nat) (nd : Inode) (fb : Nat → Bool)
    (hfb : fs.free_blocks = some fb)
    (hload : fs_load_inode disk n = some nd)
    (hdir : ∀ k, k < POINTERS_PER_INODE → nd.direct k ≠ 0 →
      nd.direct k < disk.nblocks ∧ disk.failW (nd.direct k) = false)
    (hind : nd.indirect ≠ 0 →
      nd.indirect < disk.nblocks ∧ disk.failR nd.indirect = false ∧
      disk.failW nd.indirect = false ∧
      (∀ k, k < POINTERS_PER_INODE → nd.direct k ≠ nd.indirect) ∧
      (∀ l, l < POINTERS_PER_BLOCK →
        pointerAt (disk.data nd.indirect) l ≠ 0 →
        pointerAt (disk.data nd.indirect) l < disk.nblocks ∧
        disk.failW (pointerAt (disk.data nd.indirect) l) = false))
    (hWtb : disk.failW (n / INODES_PER_BLOCK + 1) = true) :
    (fs_remove fs disk n).1 = true ∧
    (fs_remove fs disk n).2.2.data (n / INODES_PER_BLOCK + 1) =
      disk.data (n / INODES_PER_BLOCK + 1) ∧
    fs_load_inode (fs_remove fs disk n).2.2 n = some nd ∧
    (∀ k, k < POINTERS_PER_INODE → nd.direct k ≠ 0 →
      (fs_remove fs disk n).2.2.data (nd.direct k) = zeroBlock) ∧
    (nd.indirect ≠ 0 →
      (fs_remove fs disk n).2.2.data nd.indirect = zeroBlock) ∧
    ∃ fb2, (fs_remove fs disk n).2.1.free_blocks = some fb2 ∧
      (∀ k, k < POINTERS_PER_INODE → nd.direct k ≠ 0 →
        fb2 (nd.direct k) = true) ∧
      (nd.indirect ≠ 0 → fb2 nd.indirect = true) := by
  obtain ⟨hlt, hR, hdec, hval⟩ := fs_load_inode_some_spec hload
  obtain ⟨fsR, dPre, heq, hsh, _, hzeroed, hindz, hframe, hbm⟩ :=
    fs_remove_success_spec fs disk n nd hload hdir hind
  obtain ⟨_, hsame⟩ := fs_save_inode_fail_spec dPre n blankInode
    (by rw [hsh.2.2]; exact hWtb)
  have htb : dPre.data (n / INODES_PER_BLOCK + 1) =
      disk.data (n / INODES_PER_BLOCK + 1) := by
    refine hframe _ ?_ ?_
    · intro k hk
      by_cases h0 : nd.direct k = 0
      · rw [h0]
        exact (Nat.succ_ne_zero _).symm
      · intro hEq
        have hf := (hdir k hk h0).2
        rw [hEq, hWtb] at hf
        exact Bool.noConfusion hf
    · intro hi
      obtain ⟨_, _, hiW, _, hiptr⟩ := hind hi
      constructor
      · intro hEq
        rw [hEq, hWtb] at hiW
        exact Bool.noConfusion hiW
      · intro l hl
        by_cases h0 : pointerAt (disk.data nd.indirect) l = 0
        · rw [h0]
          exact (Nat.succ_ne_zero _).symm
        · intro hEq
          have hf := (hiptr l hl h0).2
          rw [hEq, hWtb] at hf
          exact Bool.noConfusion hf
  have hloadPre : fs_load_inode dPre n = some nd := by
    unfold fs_load_inode
    dsimp only []
    rw [Nat.add_sub_cancel,
      disk_read_some_of dPre _ (by rw [hsh.1]; exact hlt)
        (by rw [hsh.2.1]; exact hR)]
    dsimp only []
    rw [htb, ← hdec, if_neg hval]
  rw [heq, hsame]
  refine ⟨rfl, htb, hloadPre,
    fun k hk h3 => hzeroed k hk h3,
    fun hi => (hindz hi).1, ?_⟩
  obtain ⟨fb2, h1, _, h3, h4⟩ := hbm fb hfb
  exact ⟨fb2, h1, h3, fun hi => (h4 hi).1⟩

/-- Witness for C10: the same one-block inode on a device whose write to
the inode-table block 1 fails; remove reports success, the inode still
loads, the data block is zeroed and marked free. -/
theorem c10_remove_ignores_failed_save_witness :
    (fs_remove fsM10 diskOneBlockSaveFails 0).1 = true ∧
    (fs_remove fsM10 diskOneBlockSaveFails 0).2.2.data 1 =
      diskOneBlockSaveFails.data 1 ∧
    fs_load_inode (fs_remove fsM10 diskOneBlockSaveFails 0).2.2 0 =
      some (decodeInode (diskOneBlockSaveFails.data 1) 0) ∧
    (∀ k, k < POINTERS_PER_INODE →
      (decodeInode (diskOneBlockSaveFails.data 1) 0).direct k ≠ 0 →
      (fs_remove fsM10 diskOneBlockSaveFails 0).2.2.data
        ((decodeInode (diskOneBlockSaveFails.data 1) 0).direct k) =
        zeroBlock) ∧
    ((decodeInode (diskOneBlockSaveFails.data 1) 0).indirect ≠ 0 →
      (fs_remove fsM10 diskOneBlockSaveFails 0).2.2.data
        (decodeInode (diskOneBlockSaveFails.data 1) 0).indirect =
        zeroBlock) ∧
    ∃ fb2, (fs_remove fsM10 diskOneBlockSaveFails 0).2.1.free_blocks =
        some fb2 ∧
      (∀ k, k < POINTERS_PER_INODE →
        (decodeInode (diskOneBlockSaveFails.data 1) 0).direct k ≠ 0 →
        fb2 ((decodeInode (diskOneBlockSaveFails.data 1) 0).direct k) =
          true) ∧
      ((decodeInode (diskOneBlockSaveFails.data 1) 0).indirect ≠ 0 →
        fb2 (decodeInode (diskOneBlockSaveFails.data 1) 0).indirect =
          true) :=
  c10_remove_ignores_failed_save fsM10 diskOneBlockSaveFails 0
    (decodeInode (diskOneBlockSaveFails.data 1) 0)
    (fun i => decide (2 ≤ i) && decide (i < 10)) rfl rfl (by decide)
    (by decide) (by decide)

/- ------------------------------------------------------------------ -/
/- Mount success and bitmap lemmas (C4, C9).                           -/
/- ------------------------------------------------------------------ -/

/-- The per-slot scan of the mount bitmap rebuild succeeds when every valid
inode's nonzero indirect pointer in the scanned range is readable. -/
theorem mount_scan_inodes_true : ∀ (c : Nat) (disk : Disk) (fb : Nat → Bool)
    (blk : Nat → Nat) (j : Nat),
    (∀ t, j ≤ t → t < j + c → (decodeInode blk t).valid ≠ 0 →
      (decodeInode blk t).indirect ≠ 0 →
      (decodeInode blk t).indirect < disk.nblocks ∧
      disk.failR ((decodeInode blk t).indirect) = false) →
    (mount_scan_inodes disk fb blk j c).1 = true := by
  intro c
  induction c with
  | zero => intro disk fb blk j _; rfl
  | succ c ih =>
    intro disk fb blk j hcond
    simp only [mount_scan_inodes]
    by_cases hv : (decodeInode blk j).valid ≠ 0
    · rw [if_pos hv]
      by_cases hi : (decodeInode blk j).indirect ≠ 0
      · rw [if_pos hi]
        obtain ⟨h1, h2⟩ := hcond j (le_refl j) (by omega) hv hi
        rw [disk_read_some_of disk _ h1 h2]
        exact ih disk _ blk (j + 1)
          (fun t ht1 ht2 => hcond t (by omega) (by omega))
      · rw [if_neg hi]
        exact ih disk _ blk (j + 1)
          (fun t ht1 ht2 => hcond t (by omega) (by omega))
    · rw [if_neg hv]
      exact ih disk fb blk (j + 1)
        (fun t ht1 ht2 => hcond t (by omega) (by omega))

/-- The per-block scan of the mount bitmap rebuild succeeds when every
inode-table block in range is readable and every valid inode's nonzero
indirect pointer is readable. -/
theorem mount_scan_true : ∀ (c : Nat) (disk : Disk) (fb : Nat → Bool)
    (prev : Nat → Nat) (i : Nat),
    (∀ t, i ≤ t → t < i + c → t < disk.nblocks ∧ disk.failR t = false) →
    (∀ t, i ≤ t → t < i + c → ∀ j, j < INODES_PER_BLOCK →
      (decodeInode (disk.data t) j).valid ≠ 0 →
      (decodeInode (disk.data t) j).indirect ≠ 0 →
      (decodeInode (disk.data t) j).indirect < disk.nblocks ∧
      disk.failR ((decodeInode (disk.data t) j).indirect) = false) →
    (mount_scan disk fb prev i c).1 = true := by
  intro c
  induction c with
  | zero => intro disk fb prev i _ _; rfl
  | succ c ih =>
    intro disk fb prev i hR hS
    simp only [mount_scan]
    obtain ⟨h1, h2⟩ := hR i (le_refl i) (by omega)
    rw [disk_read_some_of disk i h1 h2, Option.getD_some]
    rw [mount_scan_inodes_true INODES_PER_BLOCK disk fb (disk.data i) 0
      (fun t _ ht2 => hS i (le_refl i) (by omega) t (by omega))]
    rw [if_pos rfl]
    exact ih disk _ (disk.data i) (i + 1)
      (fun t ht1 ht2 => hR t (by omega) (by omega))
      (fun t ht1 ht2 => hS t (by omega) (by omega))

/-- C4 (amended): mount fails, leaving the FileSystem record untouched, in
each of the five claimed cases — already mounted, wrong magic, block-count
mismatch, inode_blocks not ceil(blocks/10), inodes not inode_blocks *
INODES_PER_BLOCK; and it succeeds (installing the superblock and a bitmap)
when all five validations pass AND every inode-table block and every valid
inode's nonzero indirect pointer is readable — the extra readability
condition being what the original claim missed. -/
theorem c4_mount_validations :
    (∀ fs disk, fs.free_blocks.isSome = true →
      fs_mount fs disk = (false, fs)) ∧
    (∀ fs disk blk0, disk_read disk 0 = some blk0 →
      (decodeSuper blk0).magic_number ≠ MAGIC_NUMBER →
      fs_mount fs disk = (false, fs)) ∧
    (∀ fs disk blk0, disk_read disk 0 = some blk0 →
      (decodeSuper blk0).blocks ≠ disk.nblocks →
      fs_mount fs disk = (false, fs)) ∧
    (∀ fs disk blk0, disk_read disk 0 = some blk0 →
      (decodeSuper blk0).inode_blocks ≠ (decodeSuper blk0).blocks / 10 +
        (if (decodeSuper blk0).blocks % 10 ≠ 0 then 1 else 0) →
      fs_mount fs disk = (false, fs)) ∧
    (∀ fs disk blk0, disk_read disk 0 = some blk0 →
      (decodeSuper blk0).inodes ≠
        (decodeSuper blk0).inode_blocks * INODES_PER_BLOCK % U32MOD →
      fs_mount fs disk = (false, fs)) ∧
    (∀ fs disk, fs.free_blocks.isSome = false →
      0 < disk.nblocks → disk.failR 0 = false →
      (decodeSuper (disk.data 0)).magic_number = MAGIC_NUMBER →
      (decodeSuper (disk.data 0)).blocks = disk.nblocks →
      (decodeSuper (disk.data 0)).inode_blocks =
        (decodeSuper (disk.data 0)).blocks / 10 +
          (if (decodeSuper (disk.data 0)).blocks % 10 ≠ 0 then 1 else 0) →
      (decodeSuper (disk.data 0)).inodes =
        (decodeSuper (disk.data 0)).inode_blocks * INODES_PER_BLOCK %
          U32MOD →
      (∀ t, t < (decodeSuper (disk.data 0)).inode_blocks + 1 → 1 ≤ t →
        t < disk.nblocks ∧ disk.failR t = false) →
      (∀ t, t < (decodeSuper (disk.data 0)).inode_blocks + 1 → 1 ≤ t →
        ∀ j, j < INODES_PER_BLOCK →
        (decodeInode (disk.data t) j).valid ≠ 0 →
        (decodeInode (disk.data t) j).indirect ≠ 0 →
        (decodeInode (disk.data t) j).indirect < disk.nblocks ∧
        disk.failR ((decodeInode (disk.data t) j).indirect) = false) →
      (fs_mount fs disk).1 = true ∧
      (fs_mount fs disk).2.free_blocks.isSome = true ∧
      (fs_mount fs disk).2.meta_data = decodeSuper (disk.data 0)) := by
  refine ⟨?_, ?_, ?_, ?_, ?_, ?_⟩
  · intro fs disk h
    unfold fs_mount
    rw [h, if_pos rfl]
  · intro fs disk blk0 hr hne
    unfold fs_mount
    cases hfb : fs.free_blocks.isSome with
    | true => rw [if_pos rfl]
    | false =>
      rw [if_neg Bool.false_ne_true, hr]
      dsimp only []
      rw [if_pos hne]
  · intro fs disk blk0 hr hne
    unfold fs_mount
    cases hfb : fs.free_blocks.isSome with
    | true => rw [if_pos rfl]
    | false =>
      rw [if_neg Bool.false_ne_true, hr]
      dsimp only []
      by_cases hm : (decodeSuper blk0).magic_number ≠ MAGIC_NUMBER
      · rw [if_pos hm]
      · rw [if_neg hm, if_pos hne]
  · intro fs disk blk0 hr hne
    unfold fs_mount
    cases hfb : fs.free_blocks.isSome with
    | true => rw [if_pos rfl]
    | false =>
      rw [if_neg Bool.false_ne_true, hr]
      dsimp only []
      by_cases hm : (decodeSuper blk0).magic_number ≠ MAGIC_NUMBER
      · rw [if_pos hm]
      · rw [if_neg hm]
        by_cases hb : (decodeSuper blk0).blocks ≠ disk.nblocks
        · rw [if_pos hb]
        · rw [if_neg hb, if_pos hne]
  · intro fs disk blk0 hr hne
    unfold fs_mount
    cases hfb : fs.free_blocks.isSome with
    | true => rw [if_pos rfl]
    | false =>
      rw [if_neg Bool.false_ne_true, hr]
      dsimp only []
      by_cases hm : (decodeSuper blk0).magic_number ≠ MAGIC_NUMBER
      · rw [if_pos hm]
      · rw [if_neg hm]
        by_cases hb : (decodeSuper blk0).blocks ≠ disk.nblocks
        · rw [if_pos hb]
        · rw [if_neg hb]
          by_cases hib : (decodeSuper blk0).inode_blocks ≠
              (decodeSuper blk0).blocks / 10 +
              (if (decodeSuper blk0).blocks % 10 ≠ 0 then 1 else 0)
          · rw [if_pos hib]
          · rw [if_neg hib, if_pos hne]
  · intro fs disk hfb h0lt h0R hm hb hib hin hR hS
    unfold fs_mount
    rw [hfb, if_neg Bool.false_ne_true,
      disk_read_some_of disk 0 h0lt h0R]
    dsimp only []
    rw [if_neg (fun h => h hm), if_neg (fun h => h hb),
      if_neg (fun h => h hib), if_neg (fun h => h hin)]
    refine ⟨?_, rfl, rfl⟩
    exact mount_scan_true _ disk _ zeroBlock 1
      (fun t ht1 ht2 => hR t (by omega) (by omega))
      (fun t ht1 ht2 => hS t (by omega) (by omega))

/-- Witness for C4: on the correctly formatted empty image `goodDisk10`,
every hypothesis of the success conjunct holds concretely and mount
succeeds from the unmounted state. -/
theorem c4_mount_validations_witness :
    (fs_mount fs0 goodDisk10).1 = true ∧
    (fs_mount fs0 goodDisk10).2.free_blocks.isSome = true ∧
    (fs_mount fs0 goodDisk10).2.meta_data = decodeSuper (goodDisk10.data 0) :=
  c4_mount_validations.2.2.2.2.2 fs0 goodDisk10 rfl (by decide) rfl
    (by decide) (by decide) (by decide) (by decide)
    (by
      intro t ht1 ht2
      have hib : (decodeSuper (goodDisk10.data 0)).inode_blocks = 1 := by
        decide
      rw [hib] at ht1
      have ht : t = 1 := by omega
      subst ht
      exact ⟨by decide, rfl⟩)
    (by
      intro t ht1 ht2 j hj hv hi
      have hib : (decodeSuper (goodDisk10.data 0)).inode_blocks = 1 := by
        decide
      rw [hib] at ht1
      have ht : t = 1 := by omega
      subst ht
      exact absurd rfl hv)

/-- The mount rebuild's direct-pointer pass only clears bitmap bits. -/
theorem clear_direct_mono : ∀ (c : Nat) (fb : Nat → Bool) (nd : Inode)
    (k i : Nat), (clear_direct fb nd k c) i = true → fb i = true := by
  intro c
  induction c with
  | zero => intro fb nd k i h; exact h
  | succ c ih =>
    intro fb nd k i h
    simp only [clear_direct] at h
    have h2 := ih _ nd (k + 1) i h
    by_cases hd : nd.direct k ≠ 0
    · rw [if_pos hd] at h2
      unfold bmset at h2
      split at h2
      · exact Bool.noConfusion h2
      · exact h2
    · rw [if_neg hd] at h2
      exact h2

/-- The mount rebuild's indirect-pointer pass only clears bitmap bits. -/
theorem clear_pointers_mono : ∀ (c : Nat) (fb : Nat → Bool)
    (blk : Nat → Nat) (l i : Nat),
    (clear_pointers fb blk l c) i = true → fb i = true := by
  intro c
  induction c with
  | zero => intro fb blk l i h; exact h
  | succ c ih =>
    intro fb blk l i h
    simp only [clear_pointers] at h
    have h2 := ih _ blk (l + 1) i h
    by_cases hd : pointerAt blk l ≠ 0
    · rw [if_pos hd] at h2
      unfold bmset at h2
      split at h2
      · exact Bool.noConfusion h2
      · exact h2
    · rw [if_neg hd] at h2
      exact h2

/-- The per-slot pass of the mount rebuild only clears bitmap bits,
whether it completes or aborts. -/
theorem mount_scan_inodes_mono : ∀ (c : Nat) (disk : Disk)
    (fb : Nat → Bool) (blk : Nat → Nat) (j i : Nat),
    (mount_scan_inodes disk fb blk j c).2 i = true → fb i = true := by
  intro c
  induction c with
  | zero => intro disk fb blk j i h; exact h
  | succ c ih =>
    intro disk fb blk j i h
    simp only [mount_scan_inodes] at h
    by_cases hv : (decodeInode blk j).valid ≠ 0
    · rw [if_pos hv] at h
      by_cases hd : (decodeInode blk j).indirect ≠ 0
      · rw [if_pos hd] at h
        cases hr : disk_read disk (decodeInode blk j).indirect with
        | none =>
          rw [hr] at h
          have h2 : bmset (clear_direct fb (decodeInode blk j) 0
              POINTERS_PER_INODE) (decodeInode blk j).indirect false i =
              true := h
          unfold bmset at h2
          split at h2
          · exact Bool.noConfusion h2
          · exact clear_direct_mono _ fb _ 0 i h2
        | some ib =>
          rw [hr] at h
          have h2 := ih disk _ blk (j + 1) i h
          have h3 := clear_pointers_mono _ _ ib 0 i h2
          unfold bmset at h3
          split at h3
          · exact Bool.noConfusion h3
          · exact clear_direct_mono _ fb _ 0 i h3
      · rw [if_neg hd] at h
        exact clear_direct_mono _ fb _ 0 i (ih disk _ blk (j + 1) i h)
    · rw [if_neg hv] at h
      exact ih disk fb blk (j + 1) i h

/-- The per-block pass of the mount rebuild only clears bitmap bits. -/
theorem mount_scan_mono : ∀ (c : Nat) (disk : Disk) (fb : Nat → Bool)
    (prev : Nat → Nat) (i t : Nat),
    (mount_scan disk fb prev i c).2 t = true → fb t = true := by
  intro c
  induction c with
  | zero => intro disk fb prev i t h; exact h
  | succ c ih =>
    intro disk fb prev i t h
    simp only [mount_scan] at h
    cases hflag : (mount_scan_inodes disk fb ((disk_read disk i).getD prev)
        0 INODES_PER_BLOCK).1 with
    | true =>
      rw [hflag, if_pos rfl] at h
      exact mount_scan_inodes_mono _ disk fb _ 0 t (ih disk _ _ (i + 1) t h)
    | false =>
      rw [hflag, if_neg Bool.false_ne_true] at h
      exact mount_scan_inodes_mono _ disk fb _ 0 t h

/-- fs_find_free's scan, starting at index `i`: a nonzero result exceeds
inode_blocks whenever the reserved range [0, inode_blocks] is marked
not-free. -/
theorem find_free_loop_gt : ∀ (c : Nat) (fs : FileSystem) (disk : Disk)
    (fb : Nat → Bool) (i : Nat),
    fs.free_blocks = some fb →
    (∀ k, k < fs.meta_data.inode_blocks + 1 → fb k = false) →
    (find_free_loop fs disk i c).1 ≠ 0 →
    (fs.meta_data.inode_blocks : Int) < (find_free_loop fs disk i c).1 := by
  intro c
  induction c with
  | zero => intro fs disk fb i _ _ hne; exact absurd rfl hne
  | succ c ih =>
    intro fs disk fb i hfb hres
    simp only [find_free_loop, hfb, Option.getD_some]
    cases hv : fb i with
    | false =>
      rw [if_neg Bool.false_ne_true]
      exact ih fs disk fb (i + 1) hfb hres
    | true =>
      rw [if_pos rfl]
      have hgt : fs.meta_data.inode_blocks < i := by
        by_contra hle
        push_neg at hle
        rw [hres i (by omega)] at hv
        exact Bool.noConfusion hv
      cases hw : disk_write disk i zeroBlock with
      | none => intro hne; exact absurd rfl hne
      | some d2 =>
        intro _
        show (fs.meta_data.inode_blocks : Int) < (i : Int)
        exact_mod_cast hgt

/-- fs_find_free's scan, starting at index `i` with `i + c = blocks`: on an
in-range failure-free device whose reserved range is not-free, a result of 0
means every scanned bitmap entry was false. -/
theorem find_free_loop_none : ∀ (c : Nat) (fs : FileSystem) (disk : Disk)
    (fb : Nat → Bool) (i : Nat),
    fs.free_blocks = some fb →
    (∀ k, k < fs.meta_data.inode_blocks + 1 → fb k = false) →
    i + c = fs.meta_data.blocks →
    fs.meta_data.blocks ≤ disk.nblocks →
    (∀ b, b < disk.nblocks → disk.failW b = false) →
    (find_free_loop fs disk i c).1 = 0 →
    ∀ k, i ≤ k → k < fs.meta_data.blocks → fb k = false := by
  intro c
  induction c with
  | zero =>
    intro fs disk fb i _ _ hic _ _ _ k hk1 hk2
    omega
  | succ c ih =>
    intro fs disk fb i hfb hres hic hble hfw
    simp only [find_free_loop, hfb, Option.getD_some]
    cases hv : fb i with
    | false =>
      rw [if_neg Bool.false_ne_true]
      intro h0 k hk1 hk2
      rcases Nat.eq_or_lt_of_le hk1 with hk | hk
      · rw [← hk]; exact hv
      · exact ih fs disk fb (i + 1) hfb hres (by omega) hble hfw h0 k
          (by omega) hk2
    | true =>
      rw [if_pos rfl]
      rw [disk_write_some_of disk i zeroBlock (by omega)
        (hfw i (by omega))]
      intro h0
      exfalso
      have hi0 : i = 0 := by
        have : ((i : Nat) : Int) = 0 := h0
        exact_mod_cast this
      rw [hi0] at hv
      rw [hres 0 (by omega)] at hv
      exact Bool.noConfusion hv

/-- C9 (amended): after a successful mount the bitmap marks every block in
[0, inode_blocks] not-free (initialization reserves them, the rebuild only
clears bits); while the reserved range stays not-free, a nonzero
fs_find_free result always exceeds inode_blocks, and — on an in-range
failure-free device — a result of 0 means no free block exists.  (The
counterexample shows the reserved range need not STAY not-free: remove on
an inode that references a table block frees it.) -/
theorem c9_reserved_blocks_and_find_free :
    (∀ fs disk, (fs_mount fs disk).1 = true →
      ∀ i, i ≤ (decodeSuper (disk.data 0)).inode_blocks →
      ((fs_mount fs disk).2.free_blocks.getD (fun _ => true)) i = false) ∧
    (∀ fs disk fb, fs.free_blocks = some fb →
      (∀ k, k < fs.meta_data.inode_blocks + 1 → fb k = false) →
      (fs_find_free fs disk).1 ≠ 0 →
      (fs.meta_data.inode_blocks : Int) < (fs_find_free fs disk).1) ∧
    (∀ fs disk fb, fs.free_blocks = some fb →
      (∀ k, k < fs.meta_data.inode_blocks + 1 → fb k = false) →
      fs.meta_data.blocks ≤ disk.nblocks →
      (∀ b, b < disk.nblocks → disk.failW b = false) →
      (fs_find_free fs disk).1 = 0 →
      ∀ k, k < fs.meta_data.blocks → fb k = false) := by
  refine ⟨?_, ?_, ?_⟩
  · intro fs disk hsucc i hi
    unfold fs_mount at hsucc ⊢
    cases hfb : fs.free_blocks.isSome with
    | true =>
      rw [hfb, if_pos rfl] at hsucc
      exact Bool.noConfusion hsucc
    | false =>
      rw [hfb, if_neg Bool.false_ne_true] at hsucc
      rw [if_neg Bool.false_ne_true]
      cases hr : disk_read disk 0 with
      | none =>
        rw [hr] at hsucc
        exact Bool.noConfusion hsucc
      | some blk0 =>
        rw [hr] at hsucc
        dsimp only [] at hsucc ⊢
        have hblk0 : blk0 = disk.data 0 := by
          unfold disk_read at hr
          split at hr
          · split at hr
            · exact Option.noConfusion hr
            · injection hr with h; exact h.symm
          · exact Option.noConfusion hr
        by_cases h1 : (decodeSuper blk0).magic_number ≠ MAGIC_NUMBER
        · rw [if_pos h1] at hsucc; exact Bool.noConfusion hsucc
        · rw [if_neg h1] at hsucc ⊢
          by_cases h2 : (decodeSuper blk0).blocks ≠ disk.nblocks
          · rw [if_pos h2] at hsucc; exact Bool.noConfusion hsucc
          · rw [if_neg h2] at hsucc ⊢
            by_cases h3 : (decodeSuper blk0).inode_blocks ≠
                (decodeSuper blk0).blocks / 10 +
                (if (decodeSuper blk0).blocks % 10 ≠ 0 then 1 else 0)
            · rw [if_pos h3] at hsucc; exact Bool.noConfusion hsucc
            · rw [if_neg h3] at hsucc ⊢
              by_cases h4 : (decodeSuper blk0).inodes ≠
                  (decodeSuper blk0).inode_blocks * INODES_PER_BLOCK % U32MOD
              · rw [if_pos h4] at hsucc; exact Bool.noConfusion hsucc
              · rw [if_neg h4] at hsucc ⊢
                dsimp only [Option.getD]
                cases hval : (mount_scan disk
                    (fs_initialize_free_block_bitmap (decodeSuper blk0))
                    zeroBlock 1 (decodeSuper blk0).inode_blocks).2 i with
                | false => rfl
                | true =>
                  exfalso
                  have hmono := mount_scan_mono _ disk _ zeroBlock 1 i hval
                  unfold fs_initialize_free_block_bitmap at hmono
                  rw [← hblk0] at hi
                  split at hmono <;>
                    first
                      | exact Bool.noConfusion hmono
                      | omega
  · intro fs disk fb hfb hres
    exact find_free_loop_gt fs.meta_data.blocks fs disk fb 0 hfb hres
  · intro fs disk fb hfb hres hble hfw h0 k hk
    exact find_free_loop_none fs.meta_data.blocks fs disk fb 0 hfb hres
      (by omega) hble hfw h0 k (by omega) hk

/-- Witness for C9: mounting the good 10-block image leaves blocks 0 and 1
not-free; on the mounted state fs_find_free returns 2 > inode_blocks = 1;
and on the exhausted bitmap it returns 0 with every entry false. -/
theorem c9_reserved_blocks_and_find_free_witness :
    (((fs_mount fs0 goodDisk10).2.free_blocks.getD (fun _ => true)) 1 =
      false) ∧
    ((fsM10.meta_data.inode_blocks : Int) <
      (fs_find_free fsM10 goodDisk10).1) ∧
    (∀ k, k < fsNoFree.meta_data.blocks → noFail k = false) :=
  ⟨c9_reserved_blocks_and_find_free.1 fs0 goodDisk10 (by decide) 1
      (by decide),
    c9_reserved_blocks_and_find_free.2.1 fsM10 goodDisk10 _ rfl (by decide)
      (by decide),
    c9_reserved_blocks_and_find_free.2.2 fsNoFree goodDisk10 noFail rfl
      (by decide) (by decide) (by decide) (by decide)⟩

/- ------------------------------------------------------------------ -/
/- fs_create scan lemmas (C6).                                         -/
/- ------------------------------------------------------------------ -/

/-- The slot scan finds nothing in a range of valid slots. -/
theorem create_scan_block_none : ∀ (c : Nat) (disk : Disk) (i : Nat)
    (blk : Nat → Nat) (j : Nat),
    (∀ t, j ≤ t → t < j + c → u32At blk (32 * t) ≠ 0) →
    create_scan_block disk i blk j c = none := by
  intro c
  induction c with
  | zero => intro disk i blk j _; rfl
  | succ c ih =>
    intro disk i blk j hall
    simp only [create_scan_block]
    rw [if_neg (hall j (le_refl j) (by omega))]
    exact ih disk i blk (j + 1) (fun t ht1 ht2 => hall t (by omega) (by omega))

/-- The slot scan claims the first invalid slot `J`: it sets that slot's
validity word to 1, writes the block, and returns the global number. -/
theorem create_scan_block_found : ∀ (c : Nat) (disk : Disk) (i : Nat)
    (blk : Nat → Nat) (j J : Nat) (d2 : Disk),
    j ≤ J → J < j + c →
    (∀ t, j ≤ t → t < J → u32At blk (32 * t) ≠ 0) →
    u32At blk (32 * J) = 0 →
    disk_write disk i (setU32 blk (32 * J) 1) = some d2 →
    create_scan_block disk i blk j c =
      some (((J + (i - 1) * INODES_PER_BLOCK : Nat) : Int), d2) := by
  intro c
  induction c with
  | zero => intro disk i blk j J d2 h1 h2 _ _ _; omega
  | succ c ih =>
    intro disk i blk j J d2 h1 h2 hrow hslot hw
    simp only [create_scan_block]
    rcases Nat.eq_or_lt_of_le h1 with hj | hj
    · subst hj
      rw [if_pos hslot, hw]
    · rw [if_neg (hrow j (le_refl j) hj)]
      exact ih disk i blk (j + 1) J d2 (by omega) (by omega)
        (fun t ht1 ht2 => hrow t (by omega) ht2) hslot hw

/-- The block scan reaches block `I` (all earlier blocks readable and
full) and returns what the slot scan of block `I` finds. -/
theorem create_scan_found : ∀ (c : Nat) (disk : Disk) (i0 I J : Nat)
    (d2 : Disk),
    i0 ≤ I → I < i0 + c →
    (∀ t, i0 ≤ t → t < I → t < disk.nblocks ∧ disk.failR t = false ∧
      ∀ s, s < INODES_PER_BLOCK → u32At (disk.data t) (32 * s) ≠ 0) →
    I < disk.nblocks → disk.failR I = false →
    J < INODES_PER_BLOCK →
    (∀ s, s < J → u32At (disk.data I) (32 * s) ≠ 0) →
    u32At (disk.data I) (32 * J) = 0 →
    disk_write disk I (setU32 (disk.data I) (32 * J) 1) = some d2 →
    create_scan disk i0 c =
      (((J + (I - 1) * INODES_PER_BLOCK : Nat) : Int), d2) := by
  intro c
  induction c with
  | zero => intro disk i0 I J d2 h1 h2 _ _ _ _ _ _ _; omega
  | succ c ih =>
    intro disk i0 I J d2 h1 h2 hbefore hIlt hIR hJ hrow hslot hw
    simp only [create_scan]
    rcases Nat.eq_or_lt_of_le h1 with hi | hi
    · subst hi
      rw [disk_read_some_of disk i0 hIlt hIR]
      dsimp only []
      rw [create_scan_block_found INODES_PER_BLOCK disk i0 _ 0 J d2
        (by omega) (by omega) (fun t _ ht2 => hrow t ht2) hslot hw]
    · obtain ⟨ht1, ht2, ht3⟩ := hbefore i0 (le_refl i0) hi
      rw [disk_read_some_of disk i0 ht1 ht2]
      dsimp only []
      rw [create_scan_block_none INODES_PER_BLOCK disk i0 _ 0
        (fun t _ htt => ht3 t (by omega))]
      exact ih disk (i0 + 1) I J d2 (by omega) (by omega)
        (fun t htt1 htt2 => hbefore t (by omega) htt2) hIlt hIR hJ hrow
        hslot hw

/-- The block scan returns -1 with the disk untouched when every slot of
every (readable) inode block in range is valid. -/
theorem create_scan_none : ∀ (c : Nat) (disk : Disk) (i0 : Nat),
    (∀ t, i0 ≤ t → t < i0 + c → t < disk.nblocks ∧ disk.failR t = false ∧
      ∀ s, s < INODES_PER_BLOCK → u32At (disk.data t) (32 * s) ≠ 0) →
    create_scan disk i0 c = (-1, disk) := by
  intro c
  induction c with
  | zero => intro disk i0 _; rfl
  | succ c ih =>
    intro disk i0 hall
    simp only [create_scan]
    obtain ⟨h1, h2, h3⟩ := hall i0 (le_refl i0) (by omega)
    rw [disk_read_some_of disk i0 h1 h2]
    dsimp only []
    rw [create_scan_block_none INODES_PER_BLOCK disk i0 _ 0
      (fun t _ htt => h3 t (by omega))]
    exact ih disk (i0 + 1) (fun t ht1 ht2 => hall t (by omega) (by omega))

/-- C6 (amended): fs_create claims the first invalid slot in table order by
setting only its validity word, persists the block, and returns the global
inode number; fs_stat on that number then reports the size word that was
already stored in the slot (fs_create zeroes nothing).  When every slot of
every inode-table block is valid, fs_create returns -1 leaving the disk
unchanged. -/
theorem c6_create_first_fit (fs : FileSystem) (disk : Disk) (I J : Nat)
    (h1I : 1 ≤ I) (hIib : I ≤ fs.meta_data.inode_blocks)
    (hbefore : ∀ t, 1 ≤ t → t < I → t < disk.nblocks ∧
      disk.failR t = false ∧
      ∀ s, s < INODES_PER_BLOCK → u32At (disk.data t) (32 * s) ≠ 0)
    (hIlt : I < disk.nblocks) (hIR : disk.failR I = false)
    (hIW : disk.failW I = false)
    (hJ : J < INODES_PER_BLOCK)
    (hrow : ∀ s, s < J → u32At (disk.data I) (32 * s) ≠ 0)
    (hslot : u32At (disk.data I) (32 * J) = 0) :
    ((fs_create fs disk).1 =
      ((J + (I - 1) * INODES_PER_BLOCK : Nat) : Int) ∧
    (fs_create fs disk).2.data I = setU32 (disk.data I) (32 * J) 1 ∧
    (∀ b, b ≠ I → (fs_create fs disk).2.data b = disk.data b) ∧
    fs_stat fs (fs_create fs disk).2 (J + (I - 1) * INODES_PER_BLOCK) =
      ((u32At (disk.data I) (32 * J + 4) : Nat) : Int)) ∧
    (∀ fs2 disk2,
      (∀ t, t < fs2.meta_data.inode_blocks + 1 → 1 ≤ t →
        t < disk2.nblocks ∧ disk2.failR t = false ∧
        ∀ s, s < INODES_PER_BLOCK → u32At (disk2.data t) (32 * s) ≠ 0) →
      fs_create fs2 disk2 = (-1, disk2)) := by
  have h128 : INODES_PER_BLOCK = 128 := rfl
  have hw := disk_write_some_of disk I (setU32 (disk.data I) (32 * J) 1)
    hIlt hIW
  have hrun : fs_create fs disk =
      (((J + (I - 1) * INODES_PER_BLOCK : Nat) : Int),
        { disk with data := fun b2 =>
          if b2 = I then setU32 (disk.data I) (32 * J) 1
          else disk.data b2 }) := by
    unfold fs_create
    exact create_scan_found fs.meta_data.inode_blocks disk 1 I J _ h1I
      (by omega) hbefore hIlt hIR hJ hrow hslot hw
  constructor
  · rw [hrun]
    refine ⟨rfl, by dsimp only []; rw [if_pos rfl], ?_, ?_⟩
    · intro b hb
      dsimp only []
      rw [if_neg hb]
    · have htb : (J + (I - 1) * INODES_PER_BLOCK) / INODES_PER_BLOCK + 1 =
          I := by
        rw [h128] at hJ ⊢
        omega
      have hidx : (J + (I - 1) * INODES_PER_BLOCK) -
          (J + (I - 1) * INODES_PER_BLOCK) / INODES_PER_BLOCK *
            INODES_PER_BLOCK = J := by
        rw [h128] at hJ ⊢
        omega
      rw [fs_stat_decode fs _ _ (by rw [htb]; exact hIlt)
        (by rw [htb]; exact hIR)]
      rw [htb, hidx]
      dsimp only []
      rw [if_pos rfl]
      unfold decodeInode
      dsimp only []
      rw [u32At_setU32_self]
      rw [if_neg (show ¬(1 : Nat) % U32MOD = 0 by decide)]
      rw [u32At_setU32_out _ _ _ _ (by omega)]
  · intro fs2 disk2 hall
    unfold fs_create
    exact create_scan_none fs2.meta_data.inode_blocks disk2 1
      (fun t ht1 ht2 => hall t (by omega) (by omega))

/-- Witness for C6: on `diskStaleSlot` (slot 0 invalid with stale size 42)
create claims slot 0 of block 1 and stat reports 42; on `diskFullTable`
(every slot valid) create returns -1. -/
theorem c6_create_first_fit_witness :
    ((fs_create fsM10 diskStaleSlot).1 = ((0 + (1 - 1) * INODES_PER_BLOCK :
      Nat) : Int) ∧
    (fs_create fsM10 diskStaleSlot).2.data 1 =
      setU32 (diskStaleSlot.data 1) (32 * 0) 1 ∧
    (∀ b, b ≠ 1 → (fs_create fsM10 diskStaleSlot).2.data b =
      diskStaleSlot.data b) ∧
    fs_stat fsM10 (fs_create fsM10 diskStaleSlot).2
      (0 + (1 - 1) * INODES_PER_BLOCK) =
      ((u32At (diskStaleSlot.data 1) (32 * 0 + 4) : Nat) : Int)) ∧
    (∀ fs2 disk2,
      (∀ t, t < fs2.meta_data.inode_blocks + 1 → 1 ≤ t →
        t < disk2.nblocks ∧ disk2.failR t = false ∧
        ∀ s, s < INODES_PER_BLOCK → u32At (disk2.data t) (32 * s) ≠ 0) →
      fs_create fs2 disk2 = (-1, disk2)) :=
  c6_create_first_fit fsM10 diskStaleSlot 1 0 (by omega) (by decide)
    (fun t ht1 ht2 => absurd ht2 (by omega)) (by decide) rfl rfl
    (by decide) (fun s hs => absurd hs (by omega)) (by decide)

end SimpleFS
